import Mathlib

/-!
Verification of the AppDrop page/widget core: a shallow embedding of the Go
backend (handlers + repositories + SQL schema constraints) as pure Lean
functions over an explicit database state, together with theorems about the
widget reordering protocol, the home-page singleton invariant, route
uniqueness, cascade deletion, and the error taxonomy.

The state is a `Db` holding the `pages` and `widgets` tables as lists of rows.
Each HTTP handler is embedded as a function `Db → ... → Except ErrResp α × Db`
returning the response (or structured error) together with the post-state;
a SQL transaction that rolls back is modelled by returning the unchanged
pre-state.  Database-level constraints that the Go code relies on
(`route UNIQUE`, `page_id ... ON DELETE CASCADE`, primary-key identity) come
from `migrations/001_create_tables.sql` and are modelled inside the
repository-layer functions.
-/

namespace AppDrop

/-- Error codes of `models/error.go`. -/
inductive ErrCode where
  | validation
  | notFound
  | conflict
  | internal
  | badRequest
deriving DecidableEq, Repr

/-- Error response of `models/error.go` (`APIError`): a code plus a message. -/
structure ErrResp where
  code : ErrCode
  msg : String
deriving DecidableEq, Repr

/-- A row of the `pages` table (`models/page.go`). Timestamps are omitted:
no claim mentions them and no control flow depends on them. -/
structure Page where
  id : Nat
  name : String
  route : String
  isHome : Bool
deriving DecidableEq, Repr

/-- A row of the `widgets` table (`models/widget.go`).  The JSON config is
kept as its raw string; the core treats it as an opaque blob. -/
structure Widget where
  id : Nat
  pageId : Nat
  wtype : String
  position : Int
  config : String
deriving DecidableEq, Repr

/-- The database state: the two tables. -/
structure Db where
  pages : List Page
  widgets : List Widget
deriving DecidableEq, Repr

/-- Go's `strings.TrimSpace`: strip leading and trailing whitespace.
Modelled structurally over the character list so that it evaluates inside the
kernel (`String.trim` itself is defined by well-founded recursion on byte
positions and does not reduce definitionally). -/
def trimSpace (s : String) : String :=
  String.mk (((s.data.dropWhile Char.isWhitespace).reverse.dropWhile Char.isWhitespace).reverse)

/-- `models.ValidWidgetTypes`. -/
def validWidgetTypes : List String :=
  ["banner", "product_grid", "text", "image", "spacer"]

/-- `models.IsValidWidgetType`: membership scan over the fixed enumeration. -/
def isValidWidgetType (t : String) : Bool :=
  validWidgetTypes.any (fun v => v == t)

/-- `PageRepository.GetByID`: first row whose id matches. -/
def pageGetByID (pages : List Page) (id : Nat) : Option Page :=
  pages.find? (fun pg => pg.id == id)

/-- `PageRepository.CheckRouteExists`: EXISTS query on an exact route match,
optionally excluding one page id. -/
def checkRouteExists (pages : List Page) (route : String) (excludeID : Option Nat) : Bool :=
  match excludeID with
  | some ex => pages.any (fun pg => pg.route == route && pg.id != ex)
  | none => pages.any (fun pg => pg.route == route)

/-- `PageRepository.UnsetHomePage`:
`UPDATE pages SET is_home = FALSE WHERE is_home = TRUE`. -/
def unsetHomePage (pages : List Page) : List Page :=
  pages.map (fun pg => if pg.isHome then { pg with isHome := false } else pg)

/-- Fresh page id generated by the store on insert (`uuid_generate_v4()`
abstracted as one more than the largest id in use, which is all the proofs
need: the generated identity is new). -/
def freshPageId (pages : List Page) : Nat :=
  (pages.map (fun pg => pg.id)).foldr max 0 + 1

/-- Fresh widget id generated by the store on insert. -/
def freshWidgetId (ws : List Widget) : Nat :=
  (ws.map (fun w => w.id)).foldr max 0 + 1

/-- `WidgetRepository.GetMaxPosition`:
`SELECT COALESCE(MAX(position), 0) … WHERE page_id = $1`. -/
def maxPosition (ws : List Widget) (p : Nat) : Int :=
  match (ws.filter (fun w => w.pageId == p)).map (fun w => w.position) with
  | [] => 0
  | x :: xs => xs.foldl max x

/-- `WidgetRepository.GetWidgetCountByPageID`:
`SELECT COUNT(*) … WHERE page_id = $1`. -/
def widgetCount (ws : List Widget) (p : Nat) : Nat :=
  (ws.filter (fun w => w.pageId == p)).length

/-- ORDER BY comparison used by widget reads: ascending position. -/
def posLE (a b : Widget) : Prop := a.position ≤ b.position

instance : DecidableRel posLE := fun a b => inferInstanceAs (Decidable (a.position ≤ b.position))

instance : IsTotal Widget posLE := ⟨fun a b => Int.le_total a.position b.position⟩

instance : IsTrans Widget posLE := ⟨fun _ _ _ h1 h2 => le_trans h1 h2⟩

/-- `WidgetRepository.GetByPageID` (no type filter):
`SELECT … WHERE page_id = $1 ORDER BY position ASC`. -/
def getByPageID (ws : List Widget) (p : Nat) : List Widget :=
  List.insertionSort posLE (ws.filter (fun w => w.pageId == p))

/-- Effect of one reorder UPDATE on a single row: the row matching both the
widget id and the page id gets the new position, any other row is untouched. -/
def setPos (p : Nat) (wid : Nat) (pos : Int) (w : Widget) : Widget :=
  if w.id == wid && w.pageId == p then { w with position := pos } else w

/-- One step of `WidgetRepository.Reorder`'s loop body:
`UPDATE widgets SET position = $1 WHERE id = $2 AND page_id = $3`. -/
def applyPos (p : Nat) (wid : Nat) (pos : Int) (ws : List Widget) : List Widget :=
  ws.map (setPos p wid pos)

/-- Rows affected by one reorder update: count of rows matching both the
widget id and the page id. -/
def rowsMatched (p : Nat) (wid : Nat) (ws : List Widget) : Nat :=
  (ws.filter (fun w => w.id == wid && w.pageId == p)).length

/-- The loop of `WidgetRepository.Reorder`, carrying the running 0-based index
`i`; each id at index `i` is assigned position `i + 1`, and a zero-row update
aborts with the Go error string. -/
def reorderAux (p : Nat) (ids : List Nat) (i : Nat) (ws : List Widget) :
    Except String (List Widget) :=
  match ids with
  | [] => .ok ws
  | wid :: rest =>
    if rowsMatched p wid ws == 0 then
      .error ("widget " ++ toString wid ++ " not found on page " ++ toString p)
    else
      reorderAux p rest (i + 1) (applyPos p wid ((i : Int) + 1) ws)

/-- `WidgetRepository.Reorder`: the whole loop runs in one transaction, so an
error leaves the table untouched (callers keep the pre-state). -/
def reorderRepo (p : Nat) (ids : List Nat) (ws : List Widget) : Except String (List Widget) :=
  reorderAux p ids 0 ws

/-- The duplicate scan of `ReorderWidgets`: a set-membership walk over the
list with the set of already-seen ids. -/
def hasDup (seen : List Nat) : List Nat → Bool
  | [] => false
  | x :: xs => if seen.contains x then true else hasDup (x :: seen) xs

/-- Request body of `POST /pages` (`models.CreatePageRequest`). -/
structure CreatePageReq where
  name : String
  route : String
  isHome : Bool
deriving DecidableEq, Repr

/-- Request body of `PUT /pages/:id` (`models.UpdatePageRequest`): every field
optional, absent fields untouched. -/
structure UpdatePageReq where
  name : Option String
  route : Option String
  isHome : Option Bool
deriving DecidableEq, Repr

/-- Request body of `POST /pages/:id/widgets` (`models.CreateWidgetRequest`);
`position = 0` is the "unset" sentinel, `config = none` is an absent body
field. -/
structure CreateWidgetReq where
  wtype : String
  position : Int
  config : Option String
deriving DecidableEq, Repr

/-- Request body of `PUT /widgets/:id` (`models.UpdateWidgetRequest`). -/
structure UpdateWidgetReq where
  wtype : Option String
  position : Option Int
  config : Option String
deriving DecidableEq, Repr

/-- The optional-field updates assembled by `UpdatePage` (the Go code builds a
`map[string]interface{}` whose possible keys are exactly name/route/is_home). -/
structure PageUpdates where
  name : Option String
  route : Option String
  isHome : Option Bool
deriving DecidableEq, Repr

/-- Applying a page UPDATE's SET clauses to one row. -/
def applyPageUpdates (u : PageUpdates) (pg : Page) : Page :=
  { pg with
    name := u.name.getD pg.name
    route := u.route.getD pg.route
    isHome := u.isHome.getD pg.isHome }

/-- The optional-field updates assembled by `UpdateWidget` (possible keys of
the Go map are exactly type/position/config). -/
structure WidgetUpdates where
  wtype : Option String
  position : Option Int
  config : Option String
deriving DecidableEq, Repr

/-- Applying a widget UPDATE's SET clauses to one row. -/
def applyWidgetUpdates (u : WidgetUpdates) (w : Widget) : Widget :=
  { w with
    wtype := u.wtype.getD w.wtype
    position := u.position.getD w.position
    config := u.config.getD w.config }

/-- `PageHandler.CreatePage`: validation (empty name, empty route, duplicate
route), the clear-old-home step, then the insert.  The insert enforces the
schema's `route … UNIQUE` constraint: a violation is the storage failure the
handler reports as an internal error, and by then the home-flag clear has
already been committed (the two steps are separate statements in the Go code). -/
def createPageH (db : Db) (req : CreatePageReq) : Except ErrResp Page × Db :=
  if trimSpace req.name == "" then
    (.error ⟨.validation, "Page name is required and cannot be empty"⟩, db)
  else if trimSpace req.route == "" then
    (.error ⟨.validation, "Page route is required and cannot be empty"⟩, db)
  else if checkRouteExists db.pages req.route none then
    (.error ⟨.conflict, "Page route already exists"⟩, db)
  else
    let pages1 := if req.isHome then unsetHomePage db.pages else db.pages
    let db1 : Db := { db with pages := pages1 }
    if pages1.any (fun pg => pg.route == trimSpace req.route) then
      (.error ⟨.internal, "Failed to create page"⟩, db1)
    else
      let pg : Page :=
        { id := freshPageId pages1
          name := trimSpace req.name
          route := trimSpace req.route
          isHome := req.isHome }
      (.ok pg, { db1 with pages := pages1 ++ [pg] })

/-- `PageHandler.UpdatePage`: existence check, per-field validation in source
order (name, then route with its exclusion uniqueness check), the
clear-old-home step when `is_home` arrives as true on a page not currently
home, the empty-update no-op, then the repository UPDATE.  The UPDATE enforces
the schema's `route … UNIQUE` constraint against the other rows. -/
def updatePageH (db : Db) (id : Nat) (req : UpdatePageReq) : Except ErrResp Page × Db :=
  match pageGetByID db.pages id with
  | none => (.error ⟨.notFound, "Page not found"⟩, db)
  | some existingPage =>
    match req.name with
    | some n =>
      if trimSpace n == "" then
        (.error ⟨.validation, "Page name cannot be empty"⟩, db)
      else updatePageH2 db id existingPage req (some (trimSpace n))
    | none => updatePageH2 db id existingPage req none
where
  /-- Continuation after the name field has been processed. -/
  updatePageH2 (db : Db) (id : Nat) (existingPage : Page) (req : UpdatePageReq)
      (nameUpd : Option String) : Except ErrResp Page × Db :=
    match req.route with
    | some r =>
      if trimSpace r == "" then
        (.error ⟨.validation, "Page route cannot be empty"⟩, db)
      else if checkRouteExists db.pages r (some id) then
        (.error ⟨.conflict, "Page route already exists"⟩, db)
      else updatePageH3 db id existingPage req nameUpd (some (trimSpace r))
    | none => updatePageH3 db id existingPage req nameUpd none
  /-- Continuation after the route field has been processed: the home-flag
  step, the empty-update no-op, then the repository UPDATE. -/
  updatePageH3 (db : Db) (id : Nat) (existingPage : Page) (req : UpdatePageReq)
      (nameUpd routeUpd : Option String) : Except ErrResp Page × Db :=
    let pages1 :=
      match req.isHome with
      | some true => if existingPage.isHome then db.pages else unsetHomePage db.pages
      | _ => db.pages
    let db1 : Db := { db with pages := pages1 }
    let u : PageUpdates := { name := nameUpd, route := routeUpd, isHome := req.isHome }
    if nameUpd.isNone && routeUpd.isNone && req.isHome.isNone then
      (.ok existingPage, db)
    else
      match routeUpd with
      | some r =>
        if pages1.any (fun pg => pg.id != id && pg.route == r) then
          (.error ⟨.internal, "Failed to update page"⟩, db1)
        else
          (.ok (applyPageUpdates u existingPage),
           { db1 with pages := pages1.map (fun pg => if pg.id == id then applyPageUpdates u pg else pg) })
      | none =>
        (.ok (applyPageUpdates u existingPage),
         { db1 with pages := pages1.map (fun pg => if pg.id == id then applyPageUpdates u pg else pg) })

/-- `PageHandler.DeletePage`: existence check, home-flag guard, then
`DELETE FROM pages WHERE id = $1` together with the schema's
`ON DELETE CASCADE` removal of the page's widgets. -/
def deletePageH (db : Db) (id : Nat) : Except ErrResp String × Db :=
  match pageGetByID db.pages id with
  | none => (.error ⟨.notFound, "Page not found"⟩, db)
  | some pg =>
    if pg.isHome then
      (.error ⟨.conflict, "Cannot delete the home page. Set another page as home first."⟩, db)
    else
      (.ok "Page deleted successfully",
       { pages := db.pages.filter (fun q => q.id != id)
         widgets := db.widgets.filter (fun w => w.pageId != id) })

/-- `WidgetHandler.CreateWidget`: page existence, type validation, config
well-formedness (checked only when a non-empty config is supplied, with the
JSON parser abstracted as the oracle `vj`), position resolution (the `0`
sentinel becomes max position + 1), config defaulting, then the insert. -/
def createWidgetH (db : Db) (vj : String → Bool) (p : Nat) (req : CreateWidgetReq) :
    Except ErrResp Widget × Db :=
  match pageGetByID db.pages p with
  | none => (.error ⟨.notFound, "Page not found"⟩, db)
  | some _ =>
    if !isValidWidgetType req.wtype then
      (.error ⟨.validation,
        "Invalid widget type. Must be one of: banner, product_grid, text, image, spacer"⟩, db)
    else if (match req.config with
             | some s => 0 < s.length && !vj s
             | none => false) then
      (.error ⟨.validation, "Invalid JSON format for widget config"⟩, db)
    else
      let position := if req.position == 0 then maxPosition db.widgets p + 1 else req.position
      let config := req.config.getD "{}"
      let w : Widget :=
        { id := freshWidgetId db.widgets
          pageId := p
          wtype := req.wtype
          position := position
          config := config }
      (.ok w, { db with widgets := db.widgets ++ [w] })

/-- `WidgetHandler.UpdateWidget`: existence check, per-field validation in
source order (type, position verbatim, config through the JSON oracle `vj`),
the empty-update no-op, then the repository UPDATE of exactly the supplied
columns on the row with the given id. -/
def updateWidgetH (db : Db) (vj : String → Bool) (id : Nat) (req : UpdateWidgetReq) :
    Except ErrResp Widget × Db :=
  match db.widgets.find? (fun w => w.id == id) with
  | none => (.error ⟨.notFound, "Widget not found"⟩, db)
  | some existingWidget =>
    match req.wtype with
    | some t =>
      if !isValidWidgetType t then
        (.error ⟨.validation,
          "Invalid widget type. Must be one of: banner, product_grid, text, image, spacer"⟩, db)
      else updateWidgetH2 db vj id existingWidget req
    | none => updateWidgetH2 db vj id existingWidget req
where
  /-- Continuation after the type field has been validated. -/
  updateWidgetH2 (db : Db) (vj : String → Bool) (id : Nat) (existingWidget : Widget)
      (req : UpdateWidgetReq) : Except ErrResp Widget × Db :=
    match req.config with
    | some s =>
      if !vj s then
        (.error ⟨.validation, "Invalid JSON format for widget config"⟩, db)
      else updateWidgetH3 db id existingWidget req
    | none => updateWidgetH3 db id existingWidget req
  /-- The empty-update no-op and the repository UPDATE. -/
  updateWidgetH3 (db : Db) (id : Nat) (existingWidget : Widget) (req : UpdateWidgetReq) :
      Except ErrResp Widget × Db :=
    if req.wtype.isNone && req.position.isNone && req.config.isNone then
      (.ok existingWidget, db)
    else
      let u : WidgetUpdates := { wtype := req.wtype, position := req.position, config := req.config }
      (.ok (applyWidgetUpdates u existingWidget),
       { db with widgets := db.widgets.map (fun w => if w.id == id then applyWidgetUpdates u w else w) })

/-- `WidgetHandler.ReorderWidgets`: page existence, non-empty list, duplicate
scan, count match, then the transactional repository reorder; a repository
failure is wrapped as an internal error with the transaction rolled back, and
success re-reads the page's widgets in ascending position order. -/
def reorderWidgetsH (db : Db) (p : Nat) (ids : List Nat) :
    Except ErrResp (List Widget) × Db :=
  match pageGetByID db.pages p with
  | none => (.error ⟨.notFound, "Page not found"⟩, db)
  | some _ =>
    if ids.isEmpty then
      (.error ⟨.validation, "Widget IDs array cannot be empty"⟩, db)
    else if hasDup [] ids then
      (.error ⟨.validation, "Duplicate widget ID in the list"⟩, db)
    else if ids.length != widgetCount db.widgets p then
      (.error ⟨.validation, "The number of widget IDs must match the total widgets on the page"⟩, db)
    else
      match reorderRepo p ids db.widgets with
      | .error msg => (.error ⟨.internal, "Failed to reorder widgets: " ++ msg⟩, db)
      | .ok ws => (.ok (getByPageID ws p), { db with widgets := ws })

/-- A sequential page-directory operation (the operations of claim C3/C4's
sequences). -/
inductive PageOp where
  | create (req : CreatePageReq)
  | update (id : Nat) (req : UpdatePageReq)
  | delete (id : Nat)

/-- The post-state of one sequential page operation. -/
def applyPageOp (db : Db) : PageOp → Db
  | .create req => (createPageH db req).2
  | .update id req => (updatePageH db id req).2
  | .delete id => (deletePageH db id).2

/-- The post-state of a sequence of page operations, applied left to right. -/
def applyPageOps (db : Db) (ops : List PageOp) : Db :=
  ops.foldl applyPageOp db

/-- Number of pages currently flagged as home. -/
def homeCount (pages : List Page) : Nat :=
  pages.countP (fun pg => pg.isHome)

/-- Primary-key well-formedness of the pages table: distinct ids. -/
def pageIdsNodup (pages : List Page) : Prop :=
  (pages.map (fun pg => pg.id)).Nodup

/-- Route uniqueness over the pages table. -/
def routesNodup (pages : List Page) : Prop :=
  (pages.map (fun pg => pg.route)).Nodup

/-- Primary-key well-formedness of the widgets table: distinct ids. -/
def widgetIdsNodup (ws : List Widget) : Prop :=
  (ws.map (fun w => w.id)).Nodup

instance instDecPageIdsNodup : DecidablePred pageIdsNodup := fun pages => by
  unfold pageIdsNodup; infer_instance

instance instDecRoutesNodup : DecidablePred routesNodup := fun pages => by
  unfold routesNodup; infer_instance

instance instDecWidgetIdsNodup : DecidablePred widgetIdsNodup := fun ws => by
  unfold widgetIdsNodup; infer_instance

/-- The net per-row effect of a successful reorder loop started at index
`base`: a row of the target page whose id occurs in the list receives position
`base + (its 0-based list index) + 1`; every other row is untouched. -/
def reorderFn (p : Nat) (ids : List Nat) (base : Nat) (w : Widget) : Widget :=
  if w.pageId == p && ids.contains w.id then
    { w with position := ((base + List.indexOf w.id ids : Nat) : Int) + 1 }
  else w

instance instIsAntisymmNatLt : IsAntisymm Nat (· < ·) :=
  ⟨fun _ _ h1 h2 => absurd h1 (Nat.lt_asymm h2)⟩

/-! ### Helper lemmas about the repository layer -/

theorem setPos_id (p wid : Nat) (pos : Int) (w : Widget) : (setPos p wid pos w).id = w.id := by
  unfold setPos; split <;> rfl

theorem setPos_pageId (p wid : Nat) (pos : Int) (w : Widget) :
    (setPos p wid pos w).pageId = w.pageId := by
  unfold setPos; split <;> rfl

theorem setPos_of_match (p wid : Nat) (pos : Int) (w : Widget)
    (h1 : w.id = wid) (h2 : w.pageId = p) : setPos p wid pos w = { w with position := pos } := by
  unfold setPos
  rw [if_pos (by simp [h1, h2])]

theorem setPos_of_no_match (p wid : Nat) (pos : Int) (w : Widget)
    (h : ¬(w.id = wid ∧ w.pageId = p)) : setPos p wid pos w = w := by
  unfold setPos
  rw [if_neg (by simpa using h)]

theorem rowsMatched_eq_countP (p wid : Nat) (ws : List Widget) :
    rowsMatched p wid ws = ws.countP (fun w => w.id == wid && w.pageId == p) := by
  rw [rowsMatched, List.countP_eq_length_filter]

theorem rowsMatched_eq_zero_iff (p wid : Nat) (ws : List Widget) :
    rowsMatched p wid ws = 0 ↔ ∀ w ∈ ws, ¬(w.id = wid ∧ w.pageId = p) := by
  rw [rowsMatched, List.length_eq_zero, List.filter_eq_nil_iff]
  constructor
  · intro h w hw hc
    exact h w hw (by simp [hc.1, hc.2])
  · intro h w hw hb
    exact h w hw (by simpa using hb)

theorem rowsMatched_applyPos (p wid : Nat) (pos : Int) (p' wid' : Nat) (ws : List Widget) :
    rowsMatched p' wid' (applyPos p wid pos ws) = rowsMatched p' wid' ws := by
  rw [rowsMatched_eq_countP, rowsMatched_eq_countP, applyPos, List.countP_map]
  apply List.countP_congr
  intro w _
  simp [Function.comp, setPos_id, setPos_pageId]

theorem hasDup_eq_false_iff (l : List Nat) : ∀ seen : List Nat,
    hasDup seen l = false ↔ l.Nodup ∧ ∀ x ∈ l, x ∉ seen := by
  induction l with
  | nil => intro seen; simp [hasDup]
  | cons x xs ih =>
    intro seen
    rw [hasDup]
    by_cases hx : x ∈ seen
    · rw [if_pos (by simpa using hx)]
      constructor
      · intro h; cases h
      · rintro ⟨-, h⟩
        exact absurd hx (h x (by simp))
    · rw [if_neg (by simpa using hx), ih (x :: seen)]
      constructor
      · rintro ⟨hnd, hmem⟩
        refine ⟨List.nodup_cons.mpr ⟨fun hxxs => (hmem x hxxs) (by simp), hnd⟩, ?_⟩
        intro y hy
        rcases List.mem_cons.mp hy with rfl | hy'
        · exact hx
        · intro hys
          exact (hmem y hy') (List.mem_cons_of_mem _ hys)
      · rintro ⟨hnd, hmem⟩
        rcases List.nodup_cons.mp hnd with ⟨hxxs, hxs⟩
        refine ⟨hxs, ?_⟩
        intro y hy hyseen
        rcases List.mem_cons.mp hyseen with rfl | hy'
        · exact hxxs hy
        · exact (hmem y (List.mem_cons_of_mem _ hy)) hy'

theorem le_foldr_max (l : List Nat) : ∀ x ∈ l, x ≤ l.foldr max 0 := by
  induction l with
  | nil => simp
  | cons a tl ih =>
    intro x hx
    rcases List.mem_cons.mp hx with rfl | hx'
    · exact le_max_left _ _
    · exact le_trans (ih x hx') (le_max_right _ _)

theorem freshPageId_not_mem (pages : List Page) : ∀ pg ∈ pages, pg.id ≠ freshPageId pages := by
  intro pg hpg heq
  have hle := le_foldr_max (pages.map (fun q => q.id)) pg.id (List.mem_map_of_mem _ hpg)
  rw [freshPageId] at heq
  omega

theorem freshWidgetId_not_mem (ws : List Widget) : ∀ w ∈ ws, w.id ≠ freshWidgetId ws := by
  intro w hw heq
  have hle := le_foldr_max (ws.map (fun q => q.id)) w.id (List.mem_map_of_mem _ hw)
  rw [freshWidgetId] at heq
  omega

/-! ### Characterizing the reorder loop -/

theorem reorderFn_nil (p : Nat) (base : Nat) (w : Widget) : reorderFn p [] base w = w := by
  simp [reorderFn]

theorem reorderAux_ok (p : Nat) (ids : List Nat) :
    ∀ (base : Nat) (ws : List Widget), ids.Nodup →
      (∀ wid ∈ ids, ∃ w ∈ ws, w.id = wid ∧ w.pageId = p) →
      reorderAux p ids base ws = .ok (ws.map (reorderFn p ids base)) := by
  induction ids with
  | nil =>
    intro base ws _ _
    rw [reorderAux, List.map_congr_left (fun w _ => (reorderFn_nil p base w))]
    simp
  | cons wid rest ih =>
    intro base ws hnd hex
    have hrow : rowsMatched p wid ws ≠ 0 := by
      rw [Ne, rowsMatched_eq_zero_iff]
      push_neg
      rcases hex wid (by simp) with ⟨w, hw, h1, h2⟩
      exact ⟨w, hw, h1, h2⟩
    rw [reorderAux, if_neg (by simpa using hrow)]
    have hex' : ∀ wid' ∈ rest, ∃ w ∈ applyPos p wid ((base : Int) + 1) ws,
        w.id = wid' ∧ w.pageId = p := by
      intro wid' hwid'
      rcases hex wid' (List.mem_cons_of_mem _ hwid') with ⟨w, hw, h1, h2⟩
      exact ⟨setPos p wid ((base : Int) + 1) w, List.mem_map_of_mem _ hw,
        by rw [setPos_id, h1], by rw [setPos_pageId, h2]⟩
    rw [ih (base + 1) _ (List.nodup_cons.mp hnd).2 hex']
    rw [applyPos, List.map_map]
    refine congrArg Except.ok (List.map_congr_left ?_)
    intro w _
    have hwidrest : wid ∉ rest := (List.nodup_cons.mp hnd).1
    by_cases hm : w.id = wid ∧ w.pageId = p
    · have hset := setPos_of_match p wid ((base : Int) + 1) w hm.1 hm.2
      simp only [Function.comp_apply, hset]
      rw [reorderFn, reorderFn]
      rw [if_neg (by simp [hm.1, hwidrest]), if_pos (by simp [hm.1, hm.2])]
      have : List.indexOf w.id (wid :: rest) = 0 := by
        rw [hm.1, List.indexOf_cons_self]
      rw [this]
      simp
    · have hset := setPos_of_no_match p wid ((base : Int) + 1) w hm
      simp only [Function.comp_apply, hset]
      by_cases hp : w.pageId = p
      · have hwidne : w.id ≠ wid := fun h => hm ⟨h, hp⟩
        by_cases hin : w.id ∈ rest
        · rw [reorderFn, reorderFn]
          rw [if_pos (by simp [hp, hin]), if_pos (by simp [hp, hin])]
          rw [List.indexOf_cons_ne _ (Ne.symm hwidne)]
          congr 1
          push_cast [Nat.succ_eq_add_one]
          ring
        · have hc1 : ¬((w.pageId == p && rest.contains w.id) = true) := by simp [hin]
          have hc2 : ¬((w.pageId == p && (wid :: rest).contains w.id) = true) := by
            simp only [Bool.and_eq_true, not_and]
            intro _ hcont
            have hmem : w.id ∈ wid :: rest := by simpa using hcont
            rcases List.mem_cons.mp hmem with h | h
            · exact hwidne h
            · exact hin h
          rw [reorderFn, reorderFn, if_neg hc1, if_neg hc2]
      · rw [reorderFn, reorderFn, if_neg (by simp [hp]), if_neg (by simp [hp])]

theorem reorderAux_error (p : Nat) (ids : List Nat) :
    ∀ (base : Nat) (ws : List Widget) (wid₀ : Nat),
      ids.find? (fun wid => rowsMatched p wid ws == 0) = some wid₀ →
      reorderAux p ids base ws =
        .error ("widget " ++ toString wid₀ ++ " not found on page " ++ toString p) := by
  induction ids with
  | nil => intro base ws wid₀ h; simp at h
  | cons wid rest ih =>
    intro base ws wid₀ h
    rw [reorderAux]
    by_cases h0 : rowsMatched p wid ws = 0
    · rw [List.find?_cons_of_pos _ (by simpa using h0)] at h
      rw [if_pos (by simpa using h0)]
      cases h
      rfl
    · rw [List.find?_cons_of_neg _ (by simpa using h0)] at h
      rw [if_neg (by simpa using h0)]
      apply ih
      have : (fun wid' => rowsMatched p wid' (applyPos p wid ((base : Int) + 1) ws) == 0)
          = (fun wid' => rowsMatched p wid' ws == 0) := by
        funext wid'
        rw [rowsMatched_applyPos]
      rw [this]
      exact h

theorem reorderFn_id (p : Nat) (ids : List Nat) (base : Nat) (w : Widget) :
    (reorderFn p ids base w).id = w.id := by
  unfold reorderFn
  split <;> rfl

theorem reorderFn_pageId (p : Nat) (ids : List Nat) (base : Nat) (w : Widget) :
    (reorderFn p ids base w).pageId = w.pageId := by
  unfold reorderFn; split <;> rfl

theorem reorderFn_of_match (p : Nat) (ids : List Nat) (base : Nat) (w : Widget)
    (h1 : w.pageId = p) (h2 : w.id ∈ ids) :
    reorderFn p ids base w
      = { w with position := ((base + List.indexOf w.id ids : Nat) : Int) + 1 } := by
  unfold reorderFn
  rw [if_pos (by simp [h1, h2])]

theorem reorderFn_of_other_page (p : Nat) (ids : List Nat) (base : Nat) (w : Widget)
    (h : w.pageId ≠ p) : reorderFn p ids base w = w := by
  unfold reorderFn
  rw [if_neg (by simp [h])]

theorem getElem_eq_of_eq {α : Type} {l1 l2 : List α} (h : l1 = l2) (n : Nat)
    (h1 : n < l1.length) : l1.get ⟨n, h1⟩ = l2.get ⟨n, h ▸ h1⟩ := by
  subst h; rfl

theorem getElem_idx_congr {α : Type} (l : List α) {i j : Nat} (h : i = j)
    (hi : i < l.length) : l.get ⟨i, hi⟩ = l.get ⟨j, h ▸ hi⟩ := by
  subst h; rfl

/-- A list of distinct-id widgets whose positions are exactly one more than
their ids' indices in `L`, sorted by ascending position, lists its ids exactly
in `L`'s order. -/
theorem sorted_map_id_eq (L : List Nat) (A : List Widget)
    (hnodupL : L.Nodup)
    (hids : (A.map (fun w => w.id)).Nodup)
    (hperm : (A.map (fun w => w.id)).Perm L)
    (hpos : ∀ w ∈ A, w.position = ((List.indexOf w.id L : Nat) : Int) + 1) :
    (List.insertionSort posLE A).map (fun w => w.id) = L := by
  set S := List.insertionSort posLE A with hSdef
  have hSA : S.Perm A := List.perm_insertionSort posLE A
  have hsorted : List.Sorted posLE S := List.sorted_insertionSort posLE A
  have hSidsperm : (S.map (fun w => w.id)).Perm L := (hSA.map (fun w => w.id)).trans hperm
  have hSids : (S.map (fun w => w.id)).Nodup := (hSA.map (fun w => w.id)).nodup_iff.mpr hids
  have hSpos : ∀ w ∈ S, w.position = ((List.indexOf w.id L : Nat) : Int) + 1 :=
    fun w hw => hpos w (hSA.mem_iff.mp hw)
  have hSmem : ∀ w ∈ S, w.id ∈ L := by
    intro w hw
    exact hSidsperm.mem_iff.mp (List.mem_map_of_mem _ hw)
  -- the index sequence of S is sorted and a permutation of `range L.length`
  have hpairne : List.Pairwise (fun a b : Widget => a.id ≠ b.id) S := by
    have h' : List.Pairwise (fun a b : Nat => a ≠ b) (S.map (fun w => w.id)) := hSids
    exact List.pairwise_map.mp h'
  have hpairlt : List.Pairwise
      (fun a b : Widget => List.indexOf a.id L < List.indexOf b.id L) S := by
    have hand := hsorted.and hpairne
    refine hand.imp_of_mem ?_
    intro a b ha hb hab
    rcases hab with ⟨hle, hne⟩
    have hposa := hSpos a ha
    have hposb := hSpos b hb
    have hlei : List.indexOf a.id L ≤ List.indexOf b.id L := by
      have : ((List.indexOf a.id L : Nat) : Int) + 1 ≤ ((List.indexOf b.id L : Nat) : Int) + 1 := by
        rw [← hposa, ← hposb]; exact hle
      exact_mod_cast (by omega : ((List.indexOf a.id L : Nat) : Int) ≤ ((List.indexOf b.id L : Nat) : Int))
    rcases lt_or_eq_of_le hlei with h | h
    · exact h
    · exfalso
      have hmema := hSmem a ha
      have hmemb := hSmem b hb
      have ha' := List.indexOf_get (List.indexOf_lt_length.mpr hmema)
      have hb' := List.indexOf_get (List.indexOf_lt_length.mpr hmemb)
      apply hne
      rw [← ha', ← hb']
      congr 1
      exact Fin.ext h
  have hK : List.Pairwise (fun a b : Nat => a < b)
      (S.map (fun w => List.indexOf w.id L)) := by
    rw [List.pairwise_map]
    exact hpairlt
  have hrange : L.map (fun a => List.indexOf a L) = List.range L.length := by
    apply List.ext_getElem
    · simp
    · intro n h1 h2
      simp only [List.getElem_map, List.getElem_range]
      have := List.get_indexOf hnodupL ⟨n, by simpa using h1⟩
      simpa using this
  have hKperm : (S.map (fun w => List.indexOf w.id L)).Perm (List.range L.length) := by
    have h1 : S.map (fun w => List.indexOf w.id L)
        = (S.map (fun w => w.id)).map (fun a => List.indexOf a L) := by
      rw [List.map_map]; rfl
    rw [h1, ← hrange]
    exact hSidsperm.map _
  have hKeq : S.map (fun w => List.indexOf w.id L) = List.range L.length :=
    List.eq_of_perm_of_sorted hKperm hK (List.pairwise_lt_range L.length)
  -- conclude elementwise
  have hlen : S.length = L.length := by
    have := hSidsperm.length_eq
    simpa using this
  apply List.ext_getElem
  · simpa using hlen
  · intro n h1 h2
    have hn : n < S.length := by simpa using h1
    have hidx : List.indexOf (S.get ⟨n, hn⟩).id L = n := by
      have h3 := getElem_eq_of_eq hKeq n (by simpa using hn)
      simpa [List.get_eq_getElem] using h3
    have hmem : (S.get ⟨n, hn⟩).id ∈ L := hSmem _ (List.get_mem S n hn)
    have h5 := List.indexOf_get (List.indexOf_lt_length.mpr hmem)
    have h6 := getElem_idx_congr L hidx (List.indexOf_lt_length.mpr hmem)
    simp only [List.getElem_map]
    show (S.get ⟨n, hn⟩).id = L.get ⟨n, h2⟩
    rw [← h5]
    exact h6

theorem reorderAux_ok_rows (p : Nat) (ids : List Nat) :
    ∀ (base : Nat) (ws ws' : List Widget), reorderAux p ids base ws = .ok ws' →
      ∀ wid ∈ ids, rowsMatched p wid ws ≠ 0 := by
  induction ids with
  | nil => intro base ws ws' _ wid hwid; simp at hwid
  | cons wid1 rest ih =>
    intro base ws ws' hok wid hwid
    rw [reorderAux] at hok
    by_cases h0 : rowsMatched p wid1 ws = 0
    · rw [if_pos (by simpa using h0)] at hok
      cases hok
    · rw [if_neg (by simpa using h0)] at hok
      rcases List.mem_cons.mp hwid with rfl | hwid'
      · exact h0
      · have := ih (base + 1) _ ws' hok wid hwid'
        rwa [rowsMatched_applyPos] at this

theorem filter_ids_perm (ws : List Widget) (p : Nat) (L : List Nat)
    (hwf : widgetIdsNodup ws) (hnodupL : L.Nodup)
    (hsub : ∀ wid ∈ L, ∃ w ∈ ws, w.id = wid ∧ w.pageId = p)
    (hcover : ∀ w ∈ ws, w.pageId = p → w.id ∈ L) :
    ((ws.filter (fun w => w.pageId == p)).map (fun w => w.id)).Perm L := by
  apply List.perm_of_nodup_nodup_toFinset_eq
  · exact List.Nodup.sublist (List.Sublist.map _ (List.filter_sublist ws)) hwf
  · exact hnodupL
  · ext a
    simp only [List.mem_toFinset, List.mem_map, List.mem_filter, beq_iff_eq]
    constructor
    · rintro ⟨w, ⟨hw, hp⟩, rfl⟩
      exact hcover w hw hp
    · intro ha
      rcases hsub a ha with ⟨w, hw, h1, h2⟩
      exact ⟨w, ⟨hw, h2⟩, h1⟩

theorem reorderWidgetsH_ok_core (db : Db) (p : Nat) (L : List Nat)
    (hwf : widgetIdsNodup db.widgets)
    (hpage : (pageGetByID db.pages p).isSome)
    (hnodupL : L.Nodup) (hne : L ≠ [])
    (hsub : ∀ wid ∈ L, ∃ w ∈ db.widgets, w.id = wid ∧ w.pageId = p)
    (hcover : ∀ w ∈ db.widgets, w.pageId = p → w.id ∈ L) :
    reorderWidgetsH db p L
      = (.ok (getByPageID (db.widgets.map (reorderFn p L 0)) p),
         { db with widgets := db.widgets.map (reorderFn p L 0) }) := by
  rcases Option.isSome_iff_exists.mp hpage with ⟨pg, hpg⟩
  have hempty : L.isEmpty = false := by
    cases L with
    | nil => exact absurd rfl hne
    | cons x xs => rfl
  have hdup : hasDup [] L = false :=
    (hasDup_eq_false_iff L []).mpr ⟨hnodupL, fun x _ hx => (List.not_mem_nil x) hx⟩
  have hlen : L.length = widgetCount db.widgets p := by
    have hperm := filter_ids_perm db.widgets p L hwf hnodupL hsub hcover
    have := hperm.length_eq
    simpa [widgetCount] using this.symm
  have hbne : (L.length != widgetCount db.widgets p) = false := by
    simp [hlen]
  rw [reorderWidgetsH, hpg]
  simp only [hempty, hdup, hbne, Bool.false_eq_true, if_false]
  rw [reorderRepo, reorderAux_ok p L 0 db.widgets hnodupL hsub]

theorem reorderWidgetsH_error_core (db : Db) (p : Nat) (L : List Nat) (wid₀ : Nat)
    (hpage : (pageGetByID db.pages p).isSome)
    (hne : L ≠ []) (hnodupL : L.Nodup)
    (hlen : L.length = widgetCount db.widgets p)
    (hfind : L.find? (fun wid => rowsMatched p wid db.widgets == 0) = some wid₀) :
    reorderWidgetsH db p L =
      (.error ⟨.internal, "Failed to reorder widgets: widget " ++ toString wid₀
        ++ " not found on page " ++ toString p⟩, db) := by
  rcases Option.isSome_iff_exists.mp hpage with ⟨pg, hpg⟩
  have hempty : L.isEmpty = false := by
    cases L with
    | nil => exact absurd rfl hne
    | cons x xs => rfl
  have hdup : hasDup [] L = false :=
    (hasDup_eq_false_iff L []).mpr ⟨hnodupL, fun x _ hx => (List.not_mem_nil x) hx⟩
  have hbne : (L.length != widgetCount db.widgets p) = false := by
    simp [hlen]
  rw [reorderWidgetsH, hpg]
  simp only [hempty, hdup, hbne, Bool.false_eq_true, if_false]
  rw [reorderRepo, reorderAux_error p L 0 db.widgets wid₀ hfind]
  rfl

/-- A reorder list as long as the page's widget set, duplicate-free, and all
of whose ids have a matching row on the page, covers the page exactly. -/
theorem cover_of_rows (ws : List Widget) (p : Nat) (L : List Nat)
    (hwf : widgetIdsNodup ws) (hnodupL : L.Nodup)
    (hlen : L.length = widgetCount ws p)
    (hrows : ∀ wid ∈ L, rowsMatched p wid ws ≠ 0) :
    (∀ wid ∈ L, ∃ w ∈ ws, w.id = wid ∧ w.pageId = p) ∧
      (∀ w ∈ ws, w.pageId = p → w.id ∈ L) := by
  have hsub : ∀ wid ∈ L, ∃ w ∈ ws, w.id = wid ∧ w.pageId = p := by
    intro wid hwid
    have h := hrows wid hwid
    rw [Ne, rowsMatched_eq_zero_iff] at h
    push_neg at h
    exact h
  refine ⟨hsub, ?_⟩
  have hMnodup : ((ws.filter (fun w => w.pageId == p)).map (fun w => w.id)).Nodup :=
    List.Nodup.sublist (List.Sublist.map _ (List.filter_sublist ws)) hwf
  have hsubset : L.toFinset ⊆ ((ws.filter (fun w => w.pageId == p)).map (fun w => w.id)).toFinset := by
    intro a ha
    rw [List.mem_toFinset] at ha
    rw [List.mem_toFinset]
    rcases hsub a ha with ⟨w, hw, h1, h2⟩
    exact List.mem_map.mpr ⟨w, List.mem_filter.mpr ⟨hw, by simp [h2]⟩, h1⟩
  have hcardL : L.toFinset.card = L.length := List.toFinset_card_of_nodup hnodupL
  have hcardM : ((ws.filter (fun w => w.pageId == p)).map (fun w => w.id)).toFinset.card
      = ((ws.filter (fun w => w.pageId == p)).map (fun w => w.id)).length :=
    List.toFinset_card_of_nodup hMnodup
  have hMlen : ((ws.filter (fun w => w.pageId == p)).map (fun w => w.id)).length
      = widgetCount ws p := by
    simp [widgetCount]
  have heq : L.toFinset = ((ws.filter (fun w => w.pageId == p)).map (fun w => w.id)).toFinset :=
    Finset.eq_of_subset_of_card_le hsubset (by omega)
  intro w hw hp
  have hmem : w.id ∈ ((ws.filter (fun w => w.pageId == p)).map (fun w => w.id)).toFinset := by
    rw [List.mem_toFinset]
    exact List.mem_map.mpr ⟨w, List.mem_filter.mpr ⟨hw, by simp [hp]⟩, rfl⟩
  rw [← heq, List.mem_toFinset] at hmem
  exact hmem

/-! ### Claim theorems -/

/-- C1: for every page `p` and every non-empty list `L` of distinct widget ids
exactly covering `p`'s widgets, Reorder(p, L) succeeds and assigns to the
widget at 0-based index `i` of `L` the position `i + 1`, so the final
positions of `p`'s widgets are exactly the dense sequence `1..N` in `L`'s
order regardless of their prior positions, and the operation returns the
page's widgets re-read in ascending position order, which is `L`'s order. -/
theorem claim1_reorder_dense_in_list_order (db : Db) (p : Nat) (L : List Nat)
    (hwf : widgetIdsNodup db.widgets)
    (hpage : (pageGetByID db.pages p).isSome)
    (hnodupL : L.Nodup) (hne : L ≠ [])
    (hsub : ∀ wid ∈ L, ∃ w ∈ db.widgets, w.id = wid ∧ w.pageId = p)
    (hcover : ∀ w ∈ db.widgets, w.pageId = p → w.id ∈ L) :
    ∃ ws' db', reorderWidgetsH db p L = (.ok ws', db') ∧
      (∀ w ∈ db'.widgets, w.pageId = p →
        w.id ∈ L ∧ w.position = ((List.indexOf w.id L : Nat) : Int) + 1) ∧
      (∀ i (hi : i < L.length), ∃ w ∈ db'.widgets,
        w.id = L.get ⟨i, hi⟩ ∧ w.pageId = p ∧ w.position = (i : Int) + 1) ∧
      ws'.map (fun w => w.id) = L := by
  refine ⟨_, _, reorderWidgetsH_ok_core db p L hwf hpage hnodupL hne hsub hcover, ?_, ?_, ?_⟩
  · intro w hw hp
    rcases List.mem_map.mp hw with ⟨w0, hw0, rfl⟩
    have hp0 : w0.pageId = p := by rwa [reorderFn_pageId] at hp
    have hid : w0.id ∈ L := hcover w0 hw0 hp0
    rw [reorderFn_of_match p L 0 w0 hp0 hid]
    exact ⟨by simpa using hid, by simp⟩
  · intro i hi
    have hmem := List.get_mem L i hi
    rcases hsub _ hmem with ⟨w0, hw0, h1, h2⟩
    refine ⟨reorderFn p L 0 w0, List.mem_map_of_mem _ hw0, ?_, ?_, ?_⟩
    · rw [reorderFn_id, h1]
    · rw [reorderFn_pageId, h2]
    · rw [reorderFn_of_match p L 0 w0 h2 (h1 ▸ hmem)]
      have hix : List.indexOf w0.id L = i := by
        rw [h1]
        exact List.get_indexOf hnodupL ⟨i, hi⟩
      simp [hix]
  · show (getByPageID ((db.widgets.map (reorderFn p L 0))) p).map (fun w => w.id) = L
    rw [getByPageID]
    have hcompid : ((fun w : Widget => w.id) ∘ reorderFn p L 0) = (fun w : Widget => w.id) := by
      funext w
      exact reorderFn_id p L 0 w
    have hcomm : (db.widgets.map (reorderFn p L 0)).filter (fun w => w.pageId == p)
        = (db.widgets.filter (fun w => w.pageId == p)).map (reorderFn p L 0) := by
      rw [List.filter_map]
      have hpred : ((fun w : Widget => w.pageId == p) ∘ reorderFn p L 0)
          = (fun w : Widget => w.pageId == p) := by
        funext w
        simp [Function.comp, reorderFn_pageId]
      rw [hpred]
    rw [hcomm]
    apply sorted_map_id_eq L _ hnodupL
    · rw [List.map_map, hcompid]
      exact List.Nodup.sublist (List.Sublist.map _ (List.filter_sublist _)) hwf
    · rw [List.map_map, hcompid]
      exact filter_ids_perm db.widgets p L hwf hnodupL hsub hcover
    · intro w hw
      rcases List.mem_map.mp hw with ⟨w0, hw0, rfl⟩
      rcases List.mem_filter.mp hw0 with ⟨hmem0, hp0b⟩
      have hp0 : w0.pageId = p := by simpa using hp0b
      have hid : w0.id ∈ L := hcover w0 hmem0 hp0
      rw [reorderFn_of_match p L 0 w0 hp0 hid]
      simp

/-- Witness for C1 at a concrete database: page 1 holds widgets 10, 11, 12
with positions 3, 1, 2; reordering with the list [12, 10, 11] succeeds,
assigns the dense positions 1, 2, 3 in list order, and returns the widgets in
that order. -/
theorem claim1_witness :
    (widgetIdsNodup [Widget.mk 10 1 "banner" 3 "{}", Widget.mk 11 1 "text" 1 "{}",
        Widget.mk 12 1 "image" 2 "{}"] ∧
      ([12, 10, 11] : List Nat).Nodup) ∧
    ∃ ws' db',
      reorderWidgetsH
        (Db.mk [Page.mk 1 "Home" "/home" true]
          [Widget.mk 10 1 "banner" 3 "{}", Widget.mk 11 1 "text" 1 "{}",
           Widget.mk 12 1 "image" 2 "{}"]) 1 [12, 10, 11] = (.ok ws', db') ∧
      (∀ w ∈ db'.widgets, w.pageId = 1 →
        w.id ∈ [12, 10, 11] ∧
          w.position = ((List.indexOf w.id [12, 10, 11] : Nat) : Int) + 1) ∧
      (∀ i (hi : i < ([12, 10, 11] : List Nat).length), ∃ w ∈ db'.widgets,
        w.id = ([12, 10, 11] : List Nat).get ⟨i, hi⟩ ∧ w.pageId = 1 ∧
          w.position = (i : Int) + 1) ∧
      ws'.map (fun w => w.id) = [12, 10, 11] :=
  ⟨⟨by decide, by decide⟩,
    claim1_reorder_dense_in_list_order
      (Db.mk [Page.mk 1 "Home" "/home" true]
        [Widget.mk 10 1 "banner" 3 "{}", Widget.mk 11 1 "text" 1 "{}",
         Widget.mk 12 1 "image" 2 "{}"]) 1 [12, 10, 11]
      (by decide) (by decide) (by decide) (by decide) (by decide) (by decide)⟩

/-- C2: if a validated Reorder(p, L) fails because some per-row position
update matches zero rows (an id that does not exist, or exists on another
page), the whole transaction is aborted: the returned state is exactly the
pre-state, so no widget's position on any page changes, and the failure
message names the offending widget id and the page id. -/
theorem claim2_reorder_failure_atomic (db : Db) (p : Nat) (L : List Nat)
    (hpage : (pageGetByID db.pages p).isSome)
    (hne : L ≠ []) (hnodupL : L.Nodup)
    (hlen : L.length = widgetCount db.widgets p)
    (hmiss : ∃ wid ∈ L, rowsMatched p wid db.widgets = 0) :
    ∃ wid₀ ∈ L, rowsMatched p wid₀ db.widgets = 0 ∧
      reorderWidgetsH db p L =
        (.error ⟨.internal, "Failed to reorder widgets: widget " ++ toString wid₀
          ++ " not found on page " ++ toString p⟩, db) := by
  have hfind : (L.find? (fun wid => rowsMatched p wid db.widgets == 0)).isSome := by
    rw [List.find?_isSome]
    rcases hmiss with ⟨wid, hwid, h0⟩
    exact ⟨wid, hwid, by simpa using h0⟩
  rcases Option.isSome_iff_exists.mp hfind with ⟨wid₀, hw0⟩
  refine ⟨wid₀, List.mem_of_find?_eq_some hw0, ?_, ?_⟩
  · have := List.find?_some hw0
    simpa using this
  · exact reorderWidgetsH_error_core db p L wid₀ hpage hne hnodupL hlen hw0

/-- Witness for C2: page 1 holds the single widget 10, widget 20 lives on
page 2; Reorder(1, [20]) passes the count check, fails at the per-row update,
returns the state unchanged, and its message names widget 20 and page 1. -/
theorem claim2_witness :
    ∃ wid₀ ∈ ([20] : List Nat),
      rowsMatched 1 wid₀ [Widget.mk 10 1 "banner" 1 "{}", Widget.mk 20 2 "text" 1 "{}"] = 0 ∧
      reorderWidgetsH
        (Db.mk [Page.mk 1 "A" "/a" false, Page.mk 2 "B" "/b" false]
          [Widget.mk 10 1 "banner" 1 "{}", Widget.mk 20 2 "text" 1 "{}"]) 1 [20] =
        (.error ⟨.internal, "Failed to reorder widgets: widget " ++ toString wid₀
          ++ " not found on page " ++ toString 1⟩,
         Db.mk [Page.mk 1 "A" "/a" false, Page.mk 2 "B" "/b" false]
          [Widget.mk 10 1 "banner" 1 "{}", Widget.mk 20 2 "text" 1 "{}"]) :=
  claim2_reorder_failure_atomic
    (Db.mk [Page.mk 1 "A" "/a" false, Page.mk 2 "B" "/b" false]
      [Widget.mk 10 1 "banner" 1 "{}", Widget.mk 20 2 "text" 1 "{}"]) 1 [20]
    (by decide) (by decide) (by decide) (by decide) ⟨20, by decide, by decide⟩

/-- C5: after the page-existence check, Reorder validates in this order: an
empty list yields the empty-list ValidationError; a repeated id yields the
duplicate ValidationError (even when the length matches the page's widget
count, since the duplicate scan runs first); a duplicate-free list whose
length differs from the page's widget count yields the count-mismatch
ValidationError. In all three cases the state is returned unchanged. -/
theorem claim5_reorder_validation_order (db : Db) (p : Nat) (L : List Nat)
    (hpage : (pageGetByID db.pages p).isSome) :
    (L = [] → reorderWidgetsH db p L
        = (.error ⟨.validation, "Widget IDs array cannot be empty"⟩, db)) ∧
    (¬L.Nodup → reorderWidgetsH db p L
        = (.error ⟨.validation, "Duplicate widget ID in the list"⟩, db)) ∧
    (L ≠ [] → L.Nodup → L.length ≠ widgetCount db.widgets p →
      reorderWidgetsH db p L
        = (.error ⟨.validation,
            "The number of widget IDs must match the total widgets on the page"⟩, db)) := by
  rcases Option.isSome_iff_exists.mp hpage with ⟨pg, hpg⟩
  refine ⟨?_, ?_, ?_⟩
  · rintro rfl
    rw [reorderWidgetsH, hpg]
    rfl
  · intro hdup
    have hne : L ≠ [] := by
      rintro rfl
      exact hdup List.nodup_nil
    have hempty : L.isEmpty = false := by
      cases L with
      | nil => exact absurd rfl hne
      | cons x xs => rfl
    have hdupT : hasDup [] L = true := by
      cases hcase : hasDup [] L with
      | true => rfl
      | false => exact absurd ((hasDup_eq_false_iff L []).mp hcase).1 hdup
    rw [reorderWidgetsH, hpg]
    simp only [hempty, hdupT, Bool.false_eq_true, if_false, if_true]
  · intro hne hnodup hlen
    have hempty : L.isEmpty = false := by
      cases L with
      | nil => exact absurd rfl hne
      | cons x xs => rfl
    have hdupF : hasDup [] L = false :=
      (hasDup_eq_false_iff L []).mpr ⟨hnodup, fun x _ hx => (List.not_mem_nil x) hx⟩
    have hbne : (L.length != widgetCount db.widgets p) = true := by
      simpa using hlen
    rw [reorderWidgetsH, hpg]
    simp only [hempty, hdupF, hbne, Bool.false_eq_true, if_false, if_true]

/-- Witness for C5 at a concrete database (page 1 holds widgets 10 and 11):
the empty list, the duplicate list [10, 10] (whose length even matches the
widget count 2), and the short list [10] each produce their ValidationError
with the state unchanged. -/
theorem claim5_witness :
    (reorderWidgetsH
        (Db.mk [Page.mk 1 "A" "/a" false]
          [Widget.mk 10 1 "banner" 1 "{}", Widget.mk 11 1 "text" 2 "{}"]) 1 []
      = (.error ⟨.validation, "Widget IDs array cannot be empty"⟩,
         Db.mk [Page.mk 1 "A" "/a" false]
          [Widget.mk 10 1 "banner" 1 "{}", Widget.mk 11 1 "text" 2 "{}"])) ∧
    (reorderWidgetsH
        (Db.mk [Page.mk 1 "A" "/a" false]
          [Widget.mk 10 1 "banner" 1 "{}", Widget.mk 11 1 "text" 2 "{}"]) 1 [10, 10]
      = (.error ⟨.validation, "Duplicate widget ID in the list"⟩,
         Db.mk [Page.mk 1 "A" "/a" false]
          [Widget.mk 10 1 "banner" 1 "{}", Widget.mk 11 1 "text" 2 "{}"])) ∧
    (reorderWidgetsH
        (Db.mk [Page.mk 1 "A" "/a" false]
          [Widget.mk 10 1 "banner" 1 "{}", Widget.mk 11 1 "text" 2 "{}"]) 1 [10]
      = (.error ⟨.validation,
          "The number of widget IDs must match the total widgets on the page"⟩,
         Db.mk [Page.mk 1 "A" "/a" false]
          [Widget.mk 10 1 "banner" 1 "{}", Widget.mk 11 1 "text" 2 "{}"])) :=
  ⟨(claim5_reorder_validation_order
      (Db.mk [Page.mk 1 "A" "/a" false]
        [Widget.mk 10 1 "banner" 1 "{}", Widget.mk 11 1 "text" 2 "{}"]) 1 []
      (by decide)).1 rfl,
   (claim5_reorder_validation_order
      (Db.mk [Page.mk 1 "A" "/a" false]
        [Widget.mk 10 1 "banner" 1 "{}", Widget.mk 11 1 "text" 2 "{}"]) 1 [10, 10]
      (by decide)).2.1 (by decide),
   (claim5_reorder_validation_order
      (Db.mk [Page.mk 1 "A" "/a" false]
        [Widget.mk 10 1 "banner" 1 "{}", Widget.mk 11 1 "text" 2 "{}"]) 1 [10]
      (by decide)).2.2 (by decide) (by decide) (by decide)⟩

/-- C8 counterexample: at a concrete database (widget 20 exists but belongs
to page 2), Reorder(1, [20]) passes validation, fails at the per-row update,
and is surfaced with error kind INTERNAL_SERVER_ERROR — not the kind
CONFLICT that the claim states. -/
theorem claim8_counterexample :
    (reorderWidgetsH
        (Db.mk [Page.mk 1 "A" "/a" false, Page.mk 2 "B" "/b" false]
          [Widget.mk 10 1 "banner" 1 "{}", Widget.mk 20 2 "text" 1 "{}"]) 1 [20]).1
      = .error ⟨.internal, "Failed to reorder widgets: widget 20 not found on page 1"⟩
      ∧ ErrCode.internal ≠ ErrCode.conflict :=
  ⟨rfl, by decide⟩

/-- C8 amended: when a validated reorder list names a widget that does not
belong to the page, the operation fails with an error of kind InternalError
(not Conflict) whose message carries the offending widget id and the page id,
and the state is unchanged. -/
theorem claim8_amended_reorder_internal (db : Db) (p : Nat) (L : List Nat)
    (hpage : (pageGetByID db.pages p).isSome)
    (hne : L ≠ []) (hnodupL : L.Nodup)
    (hlen : L.length = widgetCount db.widgets p)
    (hmiss : ∃ wid ∈ L, ¬∃ w ∈ db.widgets, w.id = wid ∧ w.pageId = p) :
    ∃ wid₀ ∈ L, (¬∃ w ∈ db.widgets, w.id = wid₀ ∧ w.pageId = p) ∧
      (reorderWidgetsH db p L).1 = .error ⟨.internal,
        "Failed to reorder widgets: widget " ++ toString wid₀
          ++ " not found on page " ++ toString p⟩ ∧
      (reorderWidgetsH db p L).2 = db := by
  have hfind : (L.find? (fun wid => rowsMatched p wid db.widgets == 0)).isSome := by
    rw [List.find?_isSome]
    rcases hmiss with ⟨wid, hwid, h0⟩
    refine ⟨wid, hwid, ?_⟩
    have : rowsMatched p wid db.widgets = 0 := by
      rw [rowsMatched_eq_zero_iff]
      intro w hw hc
      exact h0 ⟨w, hw, hc.1, hc.2⟩
    simpa using this
  rcases Option.isSome_iff_exists.mp hfind with ⟨wid₀, hw0⟩
  have hcore := reorderWidgetsH_error_core db p L wid₀ hpage hne hnodupL hlen hw0
  refine ⟨wid₀, List.mem_of_find?_eq_some hw0, ?_, ?_, ?_⟩
  · have h0 : rowsMatched p wid₀ db.widgets = 0 := by
      have := List.find?_some hw0
      simpa using this
    rw [rowsMatched_eq_zero_iff] at h0
    rintro ⟨w, hw, h1, h2⟩
    exact h0 w hw ⟨h1, h2⟩
  · rw [hcore]
  · rw [hcore]

/-- Witness for C8's amended theorem at the same concrete database as the
counterexample. -/
theorem claim8_amended_witness :
    ∃ wid₀ ∈ ([20] : List Nat),
      (¬∃ w ∈ [Widget.mk 10 1 "banner" 1 "{}", Widget.mk 20 2 "text" 1 "{}"],
        w.id = wid₀ ∧ w.pageId = 1) ∧
      (reorderWidgetsH
          (Db.mk [Page.mk 1 "A" "/a" false, Page.mk 2 "B" "/b" false]
            [Widget.mk 10 1 "banner" 1 "{}", Widget.mk 20 2 "text" 1 "{}"]) 1 [20]).1
        = .error ⟨.internal, "Failed to reorder widgets: widget " ++ toString wid₀
            ++ " not found on page " ++ toString 1⟩ ∧
      (reorderWidgetsH
          (Db.mk [Page.mk 1 "A" "/a" false, Page.mk 2 "B" "/b" false]
            [Widget.mk 10 1 "banner" 1 "{}", Widget.mk 20 2 "text" 1 "{}"]) 1 [20]).2
        = Db.mk [Page.mk 1 "A" "/a" false, Page.mk 2 "B" "/b" false]
            [Widget.mk 10 1 "banner" 1 "{}", Widget.mk 20 2 "text" 1 "{}"] :=
  claim8_amended_reorder_internal
    (Db.mk [Page.mk 1 "A" "/a" false, Page.mk 2 "B" "/b" false]
      [Widget.mk 10 1 "banner" 1 "{}", Widget.mk 20 2 "text" 1 "{}"]) 1 [20]
    (by decide) (by decide) (by decide) (by decide)
    ⟨20, by decide, by decide⟩

theorem maxPosition_of_empty_page (ws : List Widget) (p : Nat)
    (h : ∀ w ∈ ws, w.pageId ≠ p) : maxPosition ws p = 0 := by
  rw [maxPosition]
  have hf : ws.filter (fun w => w.pageId == p) = [] := by
    rw [List.filter_eq_nil_iff]
    intro w hw
    simpa using h w hw
  rw [hf]
  rfl

/-- C6: widget Create resolves position as follows: the sentinel value 0 (the
encoding of an omitted position) yields the page's current maximum position
plus one — in particular 1 on a page with no widgets — and any non-zero
supplied position is stored verbatim, with no uniqueness or collision check
against sibling widgets (creation succeeds unconditionally once the page,
type and config are valid, whatever positions the siblings hold). -/
theorem claim6_create_position (db : Db) (vj : String → Bool) (p : Nat) (req : CreateWidgetReq)
    (hpage : (pageGetByID db.pages p).isSome)
    (htype : isValidWidgetType req.wtype = true)
    (hcfg : ∀ s, req.config = some s → 0 < s.length → vj s = true) :
    ∃ w, createWidgetH db vj p req = (.ok w, { db with widgets := db.widgets ++ [w] }) ∧
      w.pageId = p ∧
      w.position = (if req.position = 0 then maxPosition db.widgets p + 1 else req.position) ∧
      ((∀ w' ∈ db.widgets, w'.pageId ≠ p) → req.position = 0 → w.position = 1) := by
  rcases Option.isSome_iff_exists.mp hpage with ⟨pg, hpg⟩
  have hcfgb : (match req.config with
      | some s => 0 < s.length && !vj s
      | none => false) = false := by
    cases hc : req.config with
    | none => rfl
    | some s =>
      by_cases hl : 0 < s.length
      · simp [hcfg s hc hl]
      · simp [hl]
  rw [createWidgetH, hpg]
  rw [if_neg (by simp [htype]), if_neg (by simp [hcfgb])]
  refine ⟨_, rfl, rfl, ?_, ?_⟩
  · by_cases h0 : req.position = 0
    · simp [h0]
    · simp [h0]
  · intro hempt h0
    have hmax := maxPosition_of_empty_page db.widgets p hempt
    simp [h0, hmax]

/-- Witness for C6: with position unset (0), Create on an empty page yields
position 1, and on a page whose maximum position is 5 yields 6; a supplied
position 7 is stored verbatim even though a sibling already holds position 7. -/
theorem claim6_witness :
    (∃ w, createWidgetH (Db.mk [Page.mk 1 "A" "/a" false] []) (fun _ => true) 1
        (CreateWidgetReq.mk "banner" 0 none)
        = (.ok w, { Db.mk [Page.mk 1 "A" "/a" false] [] with widgets := [] ++ [w] }) ∧
      w.pageId = 1 ∧
      w.position = (if (0 : Int) = 0 then maxPosition [] 1 + 1 else 0) ∧
      ((∀ w' ∈ ([] : List Widget), w'.pageId ≠ 1) → (0 : Int) = 0 → w.position = 1)) ∧
    (∃ w, createWidgetH (Db.mk [Page.mk 1 "A" "/a" false] [Widget.mk 10 1 "text" 5 "{}"])
        (fun _ => true) 1 (CreateWidgetReq.mk "banner" 0 none)
        = (.ok w, { Db.mk [Page.mk 1 "A" "/a" false] [Widget.mk 10 1 "text" 5 "{}"] with
            widgets := [Widget.mk 10 1 "text" 5 "{}"] ++ [w] }) ∧
      w.pageId = 1 ∧
      w.position = (if (0 : Int) = 0 then maxPosition [Widget.mk 10 1 "text" 5 "{}"] 1 + 1 else 0) ∧
      ((∀ w' ∈ [Widget.mk 10 1 "text" 5 "{}"], w'.pageId ≠ 1) → (0 : Int) = 0 → w.position = 1)) ∧
    (∃ w, createWidgetH (Db.mk [Page.mk 1 "A" "/a" false] [Widget.mk 10 1 "text" 7 "{}"])
        (fun _ => true) 1 (CreateWidgetReq.mk "banner" 7 none)
        = (.ok w, { Db.mk [Page.mk 1 "A" "/a" false] [Widget.mk 10 1 "text" 7 "{}"] with
            widgets := [Widget.mk 10 1 "text" 7 "{}"] ++ [w] }) ∧
      w.pageId = 1 ∧
      w.position = (if (7 : Int) = 0 then maxPosition [Widget.mk 10 1 "text" 7 "{}"] 1 + 1 else 7) ∧
      ((∀ w' ∈ [Widget.mk 10 1 "text" 7 "{}"], w'.pageId ≠ 1) → (7 : Int) = 0 → w.position = 1)) :=
  ⟨claim6_create_position (Db.mk [Page.mk 1 "A" "/a" false] []) (fun _ => true) 1
      (CreateWidgetReq.mk "banner" 0 none) (by decide) (by decide) (fun s h => nomatch h),
   claim6_create_position (Db.mk [Page.mk 1 "A" "/a" false] [Widget.mk 10 1 "text" 5 "{}"])
      (fun _ => true) 1 (CreateWidgetReq.mk "banner" 0 none) (by decide) (by decide)
      (fun s h => nomatch h),
   claim6_create_position (Db.mk [Page.mk 1 "A" "/a" false] [Widget.mk 10 1 "text" 7 "{}"])
      (fun _ => true) 1 (CreateWidgetReq.mk "banner" 7 none) (by decide) (by decide)
      (fun s h => nomatch h)⟩

/-- C7: deleting a non-existent page yields NotFound; deleting the page
currently flagged home yields Conflict with the state unchanged, so the page
and all of its widgets remain intact; deleting an existing non-home page
removes the page together with every widget it owns, so zero widgets remain
queryable for that page id afterwards. -/
theorem claim7_delete_page (db : Db) (id : Nat) :
    (pageGetByID db.pages id = none →
      deletePageH db id = (.error ⟨.notFound, "Page not found"⟩, db)) ∧
    (∀ pg, pageGetByID db.pages id = some pg → pg.isHome = true →
      deletePageH db id = (.error ⟨.conflict,
        "Cannot delete the home page. Set another page as home first."⟩, db)) ∧
    (∀ pg, pageGetByID db.pages id = some pg → pg.isHome = false →
      deletePageH db id = (.ok "Page deleted successfully",
        Db.mk (db.pages.filter (fun q => q.id != id))
          (db.widgets.filter (fun w => w.pageId != id))) ∧
      getByPageID (deletePageH db id).2.widgets id = []) := by
  refine ⟨?_, ?_, ?_⟩
  · intro h
    rw [deletePageH, h]
  · intro pg h hh
    simp only [deletePageH, h]
    rw [if_pos hh]
  · intro pg h hh
    have heq : deletePageH db id = (.ok "Page deleted successfully",
        Db.mk (db.pages.filter (fun q => q.id != id))
          (db.widgets.filter (fun w => w.pageId != id))) := by
      simp only [deletePageH, h]
      rw [if_neg (by simp [hh])]
    refine ⟨heq, ?_⟩
    rw [heq, getByPageID]
    have hnil : (db.widgets.filter (fun w => w.pageId != id)).filter
        (fun w => w.pageId == id) = [] := by
      rw [List.filter_eq_nil_iff]
      intro w hw
      rcases List.mem_filter.mp hw with ⟨-, hbne⟩
      simp only [bne_iff_ne, ne_eq] at hbne
      simpa using hbne
    show List.insertionSort posLE ((db.widgets.filter (fun w => w.pageId != id)).filter
        (fun w => w.pageId == id)) = []
    rw [hnil]
    rfl

/-- Witness for C7 at a concrete database: deleting the missing page 5 yields
NotFound; deleting home page 1 yields Conflict and changes nothing; deleting
non-home page 2 removes it and leaves no queryable widgets for page 2. -/
theorem claim7_witness :
    (deletePageH (Db.mk [Page.mk 1 "Home" "/home" true, Page.mk 2 "B" "/b" false]
        [Widget.mk 10 1 "banner" 1 "{}", Widget.mk 20 2 "text" 1 "{}"]) 5
      = (.error ⟨.notFound, "Page not found"⟩,
         Db.mk [Page.mk 1 "Home" "/home" true, Page.mk 2 "B" "/b" false]
          [Widget.mk 10 1 "banner" 1 "{}", Widget.mk 20 2 "text" 1 "{}"])) ∧
    (deletePageH (Db.mk [Page.mk 1 "Home" "/home" true, Page.mk 2 "B" "/b" false]
        [Widget.mk 10 1 "banner" 1 "{}", Widget.mk 20 2 "text" 1 "{}"]) 1
      = (.error ⟨.conflict, "Cannot delete the home page. Set another page as home first."⟩,
         Db.mk [Page.mk 1 "Home" "/home" true, Page.mk 2 "B" "/b" false]
          [Widget.mk 10 1 "banner" 1 "{}", Widget.mk 20 2 "text" 1 "{}"])) ∧
    (deletePageH (Db.mk [Page.mk 1 "Home" "/home" true, Page.mk 2 "B" "/b" false]
        [Widget.mk 10 1 "banner" 1 "{}", Widget.mk 20 2 "text" 1 "{}"]) 2
      = (.ok "Page deleted successfully",
         Db.mk ([Page.mk 1 "Home" "/home" true, Page.mk 2 "B" "/b" false].filter
            (fun q => q.id != 2))
          ([Widget.mk 10 1 "banner" 1 "{}", Widget.mk 20 2 "text" 1 "{}"].filter
            (fun w => w.pageId != 2)))) ∧
    getByPageID (deletePageH (Db.mk [Page.mk 1 "Home" "/home" true, Page.mk 2 "B" "/b" false]
        [Widget.mk 10 1 "banner" 1 "{}", Widget.mk 20 2 "text" 1 "{}"]) 2).2.widgets 2 = [] :=
  ⟨(claim7_delete_page (Db.mk [Page.mk 1 "Home" "/home" true, Page.mk 2 "B" "/b" false]
      [Widget.mk 10 1 "banner" 1 "{}", Widget.mk 20 2 "text" 1 "{}"]) 5).1 rfl,
   (claim7_delete_page (Db.mk [Page.mk 1 "Home" "/home" true, Page.mk 2 "B" "/b" false]
      [Widget.mk 10 1 "banner" 1 "{}", Widget.mk 20 2 "text" 1 "{}"]) 1).2.1
      (Page.mk 1 "Home" "/home" true) rfl rfl,
   ((claim7_delete_page (Db.mk [Page.mk 1 "Home" "/home" true, Page.mk 2 "B" "/b" false]
      [Widget.mk 10 1 "banner" 1 "{}", Widget.mk 20 2 "text" 1 "{}"]) 2).2.2
      (Page.mk 2 "B" "/b" false) rfl rfl).1,
   ((claim7_delete_page (Db.mk [Page.mk 1 "Home" "/home" true, Page.mk 2 "B" "/b" false]
      [Widget.mk 10 1 "banner" 1 "{}", Widget.mk 20 2 "text" 1 "{}"]) 2).2.2
      (Page.mk 2 "B" "/b" false) rfl rfl).2⟩

theorem applyWidgetUpdates_id (u : WidgetUpdates) (w : Widget) :
    (applyWidgetUpdates u w).id = w.id := rfl

theorem applyWidgetUpdates_pageId (u : WidgetUpdates) (w : Widget) :
    (applyWidgetUpdates u w).pageId = w.pageId := rfl

/-- The post-state of widget Update is either unchanged (errors and the
empty-update no-op) or the table with exactly the supplied columns rewritten
on the rows matching the target id. -/
theorem updateWidgetH_state (db : Db) (vj : String → Bool) (id : Nat) (req : UpdateWidgetReq) :
    (updateWidgetH db vj id req).2 = db ∨
    (updateWidgetH db vj id req).2 = { db with widgets := db.widgets.map (fun w =>
      if w.id == id then applyWidgetUpdates ⟨req.wtype, req.position, req.config⟩ w else w) } := by
  obtain ⟨rt, rp, rc⟩ := req
  have h3 : ∀ ew, (updateWidgetH.updateWidgetH3 db id ew ⟨rt, rp, rc⟩).2 = db ∨
      (updateWidgetH.updateWidgetH3 db id ew ⟨rt, rp, rc⟩).2
        = { db with widgets := db.widgets.map (fun w =>
            if w.id == id then applyWidgetUpdates ⟨rt, rp, rc⟩ w else w) } := by
    intro ew
    rw [updateWidgetH.updateWidgetH3]
    by_cases hnone : ((⟨rt, rp, rc⟩ : UpdateWidgetReq).wtype.isNone
        && (⟨rt, rp, rc⟩ : UpdateWidgetReq).position.isNone
        && (⟨rt, rp, rc⟩ : UpdateWidgetReq).config.isNone) = true
    · rw [if_pos hnone]
      exact Or.inl rfl
    · rw [if_neg hnone]
      exact Or.inr rfl
  have h2 : ∀ ew, (updateWidgetH.updateWidgetH2 db vj id ew ⟨rt, rp, rc⟩).2 = db ∨
      (updateWidgetH.updateWidgetH2 db vj id ew ⟨rt, rp, rc⟩).2
        = { db with widgets := db.widgets.map (fun w =>
            if w.id == id then applyWidgetUpdates ⟨rt, rp, rc⟩ w else w) } := by
    intro ew
    rw [updateWidgetH.updateWidgetH2]
    cases rc with
    | some s =>
      dsimp only
      by_cases hv : (!vj s) = true
      · rw [if_pos hv]
        exact Or.inl rfl
      · rw [if_neg hv]
        exact h3 ew
    | none => exact h3 ew
  rw [updateWidgetH]
  cases hf : db.widgets.find? (fun w => w.id == id) with
  | none => exact Or.inl rfl
  | some w0 =>
    cases rt with
    | some t =>
      dsimp only
      by_cases hv : (!isValidWidgetType t) = true
      · rw [if_pos hv]
        exact Or.inl rfl
      · rw [if_neg hv]
        exact h2 w0
    | none => exact h2 w0

/-- C10: Widget Update modifies only the supplied fields of the target row:
the table keeps its length, every row keeps its id and its owning page
reference, so a widget can never be moved to a different page through Update,
rows whose id differs from the target are completely unchanged, and an Update
supplying no fields returns the current widget state with the database
unchanged. -/
theorem claim10_update_widget_frame (db : Db) (vj : String → Bool) (id : Nat)
    (req : UpdateWidgetReq) :
    ((updateWidgetH db vj id req).2.widgets.length = db.widgets.length ∧
      (∀ i (hi : i < db.widgets.length) (hi2 : i < (updateWidgetH db vj id req).2.widgets.length),
        ((updateWidgetH db vj id req).2.widgets.get ⟨i, hi2⟩).id = (db.widgets.get ⟨i, hi⟩).id ∧
        ((updateWidgetH db vj id req).2.widgets.get ⟨i, hi2⟩).pageId
          = (db.widgets.get ⟨i, hi⟩).pageId ∧
        ((db.widgets.get ⟨i, hi⟩).id ≠ id →
          (updateWidgetH db vj id req).2.widgets.get ⟨i, hi2⟩ = db.widgets.get ⟨i, hi⟩))) ∧
    (req.wtype = none → req.position = none → req.config = none →
      ∀ w0, db.widgets.find? (fun w => w.id == id) = some w0 →
        updateWidgetH db vj id req = (.ok w0, db)) := by
  constructor
  · rcases updateWidgetH_state db vj id req with h | h <;> rw [h]
    · exact ⟨rfl, fun i hi hi2 => ⟨rfl, rfl, fun _ => rfl⟩⟩
    · refine ⟨by simp, ?_⟩
      intro i hi hi2
      have hget : (db.widgets.map (fun w =>
          if w.id == id then applyWidgetUpdates ⟨req.wtype, req.position, req.config⟩ w else w)).get
            ⟨i, by simpa using hi⟩
          = (if ((db.widgets.get ⟨i, hi⟩).id == id) = true
              then applyWidgetUpdates ⟨req.wtype, req.position, req.config⟩ (db.widgets.get ⟨i, hi⟩)
              else db.widgets.get ⟨i, hi⟩) := by
        simp [List.get_eq_getElem]
      refine ⟨?_, ?_, ?_⟩
      · rw [hget]
        by_cases hid : ((db.widgets.get ⟨i, hi⟩).id == id) = true
        · rw [if_pos hid, applyWidgetUpdates_id]
        · rw [if_neg hid]
      · rw [hget]
        by_cases hid : ((db.widgets.get ⟨i, hi⟩).id == id) = true
        · rw [if_pos hid, applyWidgetUpdates_pageId]
        · rw [if_neg hid]
      · intro hne
        rw [hget, if_neg (by simpa using hne)]
  · intro ht hp hc w0 hf
    simp only [updateWidgetH, hf, updateWidgetH.updateWidgetH2, updateWidgetH.updateWidgetH3,
      ht, hp, hc, Option.isNone_none, Bool.and_self, if_true]

/-- Witness for C10: an Update supplying no fields on widget 10 returns the
widget unchanged together with the unchanged database. -/
theorem claim10_witness :
    updateWidgetH (Db.mk [Page.mk 1 "A" "/a" false] [Widget.mk 10 1 "banner" 1 "{}"])
      (fun _ => true) 10 (UpdateWidgetReq.mk none none none)
      = (.ok (Widget.mk 10 1 "banner" 1 "{}"),
         Db.mk [Page.mk 1 "A" "/a" false] [Widget.mk 10 1 "banner" 1 "{}"]) :=
  (claim10_update_widget_frame (Db.mk [Page.mk 1 "A" "/a" false]
      [Widget.mk 10 1 "banner" 1 "{}"]) (fun _ => true) 10
      (UpdateWidgetReq.mk none none none)).2 rfl rfl rfl
    (Widget.mk 10 1 "banner" 1 "{}") (by decide)

/-- C9 counterexample: widget Update stores a caller-supplied position
verbatim, so a successful Update can leave a stored widget with position
0 < 1: updating widget 10's position to 0 succeeds and stores 0, refuting the
claim that every stored position is at least 1 after any successful widget
operation. -/
theorem claim9_counterexample :
    updateWidgetH (Db.mk [Page.mk 1 "A" "/a" false] [Widget.mk 10 1 "banner" 1 "{}"])
      (fun _ => true) 10 (UpdateWidgetReq.mk none (some 0) none)
      = (.ok (Widget.mk 10 1 "banner" 0 "{}"),
         Db.mk [Page.mk 1 "A" "/a" false] [Widget.mk 10 1 "banner" 0 "{}"]) ∧
    ¬(1 ≤ (Widget.mk 10 1 "banner" 0 "{}").position) :=
  ⟨rfl, by decide⟩

/-- C9 amended: the positions Reorder itself assigns are positive — after a
successful Reorder on a table with distinct widget ids, every widget of the
reordered page has position at least 1 — while Create and Update write
caller-supplied positions verbatim, so no positivity invariant holds for
them. -/
theorem claim9_amended_reorder_positions_positive (db : Db) (p : Nat) (L : List Nat)
    (ws' : List Widget) (db' : Db)
    (hwf : widgetIdsNodup db.widgets)
    (hok : reorderWidgetsH db p L = (.ok ws', db')) :
    ∀ w ∈ db'.widgets, w.pageId = p → 1 ≤ w.position := by
  rw [reorderWidgetsH] at hok
  cases hpg : pageGetByID db.pages p with
  | none =>
    rw [hpg] at hok
    simp at hok
  | some pg =>
    rw [hpg] at hok
    by_cases hemp : L.isEmpty = true
    · rw [if_pos hemp] at hok
      simp at hok
    · rw [if_neg hemp] at hok
      by_cases hdup : hasDup [] L = true
      · rw [if_pos hdup] at hok
        simp at hok
      · rw [if_neg hdup] at hok
        by_cases hlen : (L.length != widgetCount db.widgets p) = true
        · rw [if_pos hlen] at hok
          simp at hok
        · rw [if_neg hlen] at hok
          cases hrep : reorderRepo p L db.widgets with
          | error msg =>
            rw [hrep] at hok
            simp at hok
          | ok ws2 =>
            rw [hrep] at hok
            have hdb' : db' = { db with widgets := ws2 } := by
              have h2 := congrArg Prod.snd hok
              simpa using h2.symm
            have hnodupL : L.Nodup := by
              have hfalse : hasDup [] L = false := by
                cases hcase : hasDup [] L with
                | true => exact absurd hcase hdup
                | false => rfl
              exact ((hasDup_eq_false_iff L []).mp hfalse).1
            have hlen' : L.length = widgetCount db.widgets p := by
              simpa using hlen
            rw [reorderRepo] at hrep
            have hrows : ∀ wid ∈ L, rowsMatched p wid db.widgets ≠ 0 :=
              reorderAux_ok_rows p L 0 db.widgets ws2 hrep
            rcases cover_of_rows db.widgets p L hwf hnodupL hlen' hrows with ⟨hsub, hcover⟩
            have hok2 := reorderAux_ok p L 0 db.widgets hnodupL hsub
            rw [hrep] at hok2
            have hws2 : ws2 = db.widgets.map (reorderFn p L 0) := by
              injection hok2
            intro w hw hp
            rw [hdb'] at hw
            simp only at hw
            rw [hws2] at hw
            rcases List.mem_map.mp hw with ⟨w0, hw0, rfl⟩
            have hp0 : w0.pageId = p := by rwa [reorderFn_pageId] at hp
            have hid : w0.id ∈ L := hcover w0 hw0 hp0
            rw [reorderFn_of_match p L 0 w0 hp0 hid]
            simp only
            omega

/-- Witness for C9's amended theorem: reordering page 1's single widget 10
(previously at position 3) leaves every widget of page 1 with position at
least 1. -/
theorem claim9_amended_witness :
    widgetIdsNodup [Widget.mk 10 1 "banner" 3 "{}"] ∧
    ∀ w ∈ (Db.mk [Page.mk 1 "A" "/a" false] [Widget.mk 10 1 "banner" 1 "{}"]).widgets,
      w.pageId = 1 → 1 ≤ w.position :=
  ⟨by decide,
   claim9_amended_reorder_positions_positive
     (Db.mk [Page.mk 1 "A" "/a" false] [Widget.mk 10 1 "banner" 3 "{}"]) 1 [10]
     [Widget.mk 10 1 "banner" 1 "{}"]
     (Db.mk [Page.mk 1 "A" "/a" false] [Widget.mk 10 1 "banner" 1 "{}"])
     (by decide) rfl⟩

/-! ### The page directory: home-flag and route-uniqueness machinery -/

theorem unsetFn_id (pg : Page) :
    ((if pg.isHome then { pg with isHome := false } else pg) : Page).id = pg.id := by
  split <;> rfl

theorem unsetFn_route (pg : Page) :
    ((if pg.isHome then { pg with isHome := false } else pg) : Page).route = pg.route := by
  split <;> rfl

theorem unsetFn_isHome (pg : Page) :
    ((if pg.isHome then { pg with isHome := false } else pg) : Page).isHome = false := by
  by_cases h : pg.isHome
  · rw [if_pos h]
  · rw [if_neg h]
    simpa using h

theorem unsetHomePage_ids (pages : List Page) :
    (unsetHomePage pages).map (fun pg => pg.id) = pages.map (fun pg => pg.id) := by
  rw [unsetHomePage, List.map_map]
  exact List.map_congr_left (fun pg _ => unsetFn_id pg)

theorem unsetHomePage_routes (pages : List Page) :
    (unsetHomePage pages).map (fun pg => pg.route) = pages.map (fun pg => pg.route) := by
  rw [unsetHomePage, List.map_map]
  exact List.map_congr_left (fun pg _ => unsetFn_route pg)

theorem homeCount_unsetHomePage (pages : List Page) :
    homeCount (unsetHomePage pages) = 0 := by
  rw [homeCount, unsetHomePage, List.countP_map]
  rw [List.countP_eq_zero]
  intro pg _
  simpa using unsetFn_isHome pg

theorem applyPageUpdates_id (u : PageUpdates) (pg : Page) :
    (applyPageUpdates u pg).id = pg.id := rfl

theorem pageGetByID_some (pages : List Page) (id : Nat) (pg : Page)
    (h : pageGetByID pages id = some pg) : pg ∈ pages ∧ pg.id = id := by
  refine ⟨List.mem_of_find?_eq_some h, ?_⟩
  have := List.find?_some h
  simpa using this

theorem homeCount_append (l1 l2 : List Page) :
    homeCount (l1 ++ l2) = homeCount l1 + homeCount l2 := by
  rw [homeCount, homeCount, homeCount, List.countP_append]

theorem pageIdsNodup_insert_fresh (pages : List Page) (h : pageIdsNodup pages) (pg : Page)
    (hfresh : pg.id = freshPageId pages) : pageIdsNodup (pages ++ [pg]) := by
  rw [pageIdsNodup, List.map_append]
  rw [List.nodup_append]
  refine ⟨h, List.nodup_singleton _, ?_⟩
  intro x hx
  simp only [List.map_cons, List.map_nil, List.mem_singleton]
  intro hxeq
  rcases List.mem_map.mp hx with ⟨q, hq, rfl⟩
  exact freshPageId_not_mem pages q hq (hxeq.trans hfresh)

/-- Branch characterization of `CreatePage`'s post-state: unchanged (errors
before the home-flag step), only the home flags cleared (the insert failed
after the clear committed), or the cleared-or-unchanged table plus the newly
inserted row whose trimmed route no current row holds. -/
theorem createPageH_state (db : Db) (req : CreatePageReq) :
    (createPageH db req).2 = db ∨
    ((createPageH db req).2 = { db with pages := unsetHomePage db.pages } ∧ req.isHome = true) ∨
    (∃ pages1, ((req.isHome = true ∧ pages1 = unsetHomePage db.pages) ∨
        (req.isHome = false ∧ pages1 = db.pages)) ∧
      (∀ pg ∈ pages1, pg.route ≠ trimSpace req.route) ∧
      (createPageH db req).2 = { db with pages := pages1 ++
        [Page.mk (freshPageId pages1) (trimSpace req.name) (trimSpace req.route) req.isHome] }) := by
  obtain ⟨rn, rr, rh⟩ := req
  rw [createPageH]
  dsimp only
  by_cases h1 : (trimSpace rn == "") = true
  · rw [if_pos h1]
    exact Or.inl rfl
  · rw [if_neg h1]
    by_cases h2 : (trimSpace rr == "") = true
    · rw [if_pos h2]
      exact Or.inl rfl
    · rw [if_neg h2]
      by_cases h3 : checkRouteExists db.pages rr none = true
      · rw [if_pos h3]
        exact Or.inl rfl
      · rw [if_neg h3]
        cases rh with
        | true =>
          simp only [if_true]
          by_cases h4 : (unsetHomePage db.pages).any (fun pg => pg.route == trimSpace rr) = true
          · rw [if_pos h4]
            exact Or.inr (Or.inl ⟨rfl, by trivial⟩)
          · rw [if_neg h4]
            refine Or.inr (Or.inr ⟨unsetHomePage db.pages, Or.inl ⟨by trivial, rfl⟩, ?_, rfl⟩)
            intro pg hpg hroute
            exact h4 (List.any_eq_true.mpr ⟨pg, hpg, by simp [hroute]⟩)
        | false =>
          simp only [Bool.false_eq_true, if_false]
          by_cases h4 : db.pages.any (fun pg => pg.route == trimSpace rr) = true
          · rw [if_pos h4]
            exact Or.inl rfl
          · rw [if_neg h4]
            refine Or.inr (Or.inr ⟨db.pages, Or.inr ⟨by trivial, rfl⟩, ?_, rfl⟩)
            intro pg hpg hroute
            exact h4 (List.any_eq_true.mpr ⟨pg, hpg, by simp [hroute]⟩)

/-- Branch characterization of `DeletePage`'s post-state: unchanged, or both
tables filtered by the deleted page id (the cascade). -/
theorem deletePageH_state (db : Db) (id : Nat) :
    (deletePageH db id).2 = db ∨
    (deletePageH db id).2 = Db.mk (db.pages.filter (fun q => q.id != id))
      (db.widgets.filter (fun w => w.pageId != id)) := by
  cases hex : pageGetByID db.pages id with
  | none =>
    left
    simp only [deletePageH, hex]
  | some pg =>
    by_cases hh : pg.isHome = true
    · left
      simp only [deletePageH, hex]
      rw [if_pos hh]
    · right
      simp only [deletePageH, hex]
      rw [if_neg hh]

/-- Branch characterization of the repository half of `UpdatePage` (after the
name and route fields have been validated): the post-state is unchanged, or
built from `pages1` — the table with the home flags cleared exactly when
`is_home` arrives as true on a page that is not currently home — either alone
(route UNIQUE violation at the store) or with the supplied columns rewritten
on the rows matching the target id, in which case no other row holds the new
route. -/
theorem updatePageH3_cases (db : Db) (id : Nat) (ex : Page) (req : UpdatePageReq)
    (nameUpd routeUpd : Option String) :
    (updatePageH.updatePageH3 db id ex req nameUpd routeUpd).2 = db ∨
    ∃ pages1,
      ((req.isHome = some true ∧ ex.isHome = false ∧ pages1 = unsetHomePage db.pages) ∨
        (¬(req.isHome = some true ∧ ex.isHome = false) ∧ pages1 = db.pages)) ∧
      ((updatePageH.updatePageH3 db id ex req nameUpd routeUpd).2 = { db with pages := pages1 } ∨
        ((∀ r, routeUpd = some r → ∀ pg ∈ pages1, pg.id ≠ id → pg.route ≠ r) ∧
          (updatePageH.updatePageH3 db id ex req nameUpd routeUpd).2
            = { db with pages := pages1.map (fun pg : Page => if pg.id == id
                then applyPageUpdates ⟨nameUpd, routeUpd, req.isHome⟩ pg else pg) })) := by
  obtain ⟨rn0, rr0, rh⟩ := req
  rw [updatePageH.updatePageH3.eq_def]
  dsimp only
  by_cases hno : (nameUpd.isNone && routeUpd.isNone && rh.isNone) = true
  · rw [if_pos hno]
    exact Or.inl rfl
  · rw [if_neg hno]
    have main : ∀ pages1 : List Page,
        ((rh = some true ∧ ex.isHome = false ∧ pages1 = unsetHomePage db.pages) ∨
          (¬(rh = some true ∧ ex.isHome = false) ∧ pages1 = db.pages)) →
        (match routeUpd with
          | some r =>
            if pages1.any (fun pg : Page => pg.id != id && pg.route == r) then
              ((.error ⟨.internal, "Failed to update page"⟩ :
                  Except ErrResp Page), { db with pages := pages1 })
            else
              (.ok (applyPageUpdates ⟨nameUpd, routeUpd, rh⟩ ex),
               { db with pages := pages1.map (fun pg : Page => if pg.id == id
                   then applyPageUpdates ⟨nameUpd, routeUpd, rh⟩ pg else pg) })
          | none =>
            (.ok (applyPageUpdates ⟨nameUpd, routeUpd, rh⟩ ex),
             { db with pages := pages1.map (fun pg : Page => if pg.id == id
                 then applyPageUpdates ⟨nameUpd, routeUpd, rh⟩ pg else pg) })).2 = db ∨
        ∃ pages2,
          ((rh = some true ∧ ex.isHome = false ∧ pages2 = unsetHomePage db.pages) ∨
            (¬(rh = some true ∧ ex.isHome = false) ∧ pages2 = db.pages)) ∧
          ((match routeUpd with
            | some r =>
              if pages1.any (fun pg : Page => pg.id != id && pg.route == r) then
                ((.error ⟨.internal, "Failed to update page"⟩ :
                    Except ErrResp Page), { db with pages := pages1 })
              else
                (.ok (applyPageUpdates ⟨nameUpd, routeUpd, rh⟩ ex),
                 { db with pages := pages1.map (fun pg : Page => if pg.id == id
                     then applyPageUpdates ⟨nameUpd, routeUpd, rh⟩ pg else pg) })
            | none =>
              (.ok (applyPageUpdates ⟨nameUpd, routeUpd, rh⟩ ex),
               { db with pages := pages1.map (fun pg : Page => if pg.id == id
                   then applyPageUpdates ⟨nameUpd, routeUpd, rh⟩ pg else pg) })).2
              = { db with pages := pages2 } ∨
          ((∀ r, routeUpd = some r → ∀ pg ∈ pages2, pg.id ≠ id → pg.route ≠ r) ∧
            (match routeUpd with
              | some r =>
                if pages1.any (fun pg : Page => pg.id != id && pg.route == r) then
                  ((.error ⟨.internal, "Failed to update page"⟩ :
                      Except ErrResp Page), { db with pages := pages1 })
                else
                  (.ok (applyPageUpdates ⟨nameUpd, routeUpd, rh⟩ ex),
                   { db with pages := pages1.map (fun pg : Page => if pg.id == id
                       then applyPageUpdates ⟨nameUpd, routeUpd, rh⟩ pg else pg) })
              | none =>
                (.ok (applyPageUpdates ⟨nameUpd, routeUpd, rh⟩ ex),
                 { db with pages := pages1.map (fun pg : Page => if pg.id == id
                     then applyPageUpdates ⟨nameUpd, routeUpd, rh⟩ pg else pg) })).2
                = { db with pages := pages2.map (fun pg : Page => if pg.id == id
                    then applyPageUpdates ⟨nameUpd, routeUpd, rh⟩ pg else pg) })) := by
      intro pages1 hp1
      cases routeUpd with
      | some r =>
        dsimp only
        by_cases hany : pages1.any (fun pg : Page => pg.id != id && pg.route == r) = true
        · rw [if_pos hany]
          exact Or.inr ⟨pages1, hp1, Or.inl rfl⟩
        · rw [if_neg hany]
          refine Or.inr ⟨pages1, hp1, Or.inr ⟨?_, rfl⟩⟩
          intro r' hr' pg hpg hne hroute
          cases hr'
          exact hany (List.any_eq_true.mpr ⟨pg, hpg, by simp [hne, hroute]⟩)
      | none =>
        exact Or.inr ⟨pages1, hp1, Or.inr ⟨(fun r hr => nomatch hr), rfl⟩⟩
    cases rh with
    | none => exact main db.pages (Or.inr ⟨by simp, rfl⟩)
    | some b =>
      cases b with
      | false => exact main db.pages (Or.inr ⟨by simp, rfl⟩)
      | true =>
        by_cases heh : ex.isHome = true
        · rw [if_pos heh]
          exact main db.pages (Or.inr ⟨by simp [heh], rfl⟩)
        · rw [if_neg heh]
          exact main (unsetHomePage db.pages)
            (Or.inl ⟨rfl, (by simpa using heh), rfl⟩)

/-- Lifts `updatePageH3_cases` over the route-field validation step. -/
theorem updatePageH2_cases (db : Db) (id : Nat) (ex : Page) (req : UpdatePageReq)
    (nameUpd : Option String) :
    (updatePageH.updatePageH2 db id ex req nameUpd).2 = db ∨
    ∃ pages1 routeUpd,
      ((req.isHome = some true ∧ ex.isHome = false ∧ pages1 = unsetHomePage db.pages) ∨
        (¬(req.isHome = some true ∧ ex.isHome = false) ∧ pages1 = db.pages)) ∧
      ((updatePageH.updatePageH2 db id ex req nameUpd).2 = { db with pages := pages1 } ∨
        ((∀ r, routeUpd = some r → ∀ pg ∈ pages1, pg.id ≠ id → pg.route ≠ r) ∧
          (updatePageH.updatePageH2 db id ex req nameUpd).2
            = { db with pages := pages1.map (fun pg : Page => if pg.id == id
                then applyPageUpdates ⟨nameUpd, routeUpd, req.isHome⟩ pg else pg) })) := by
  obtain ⟨rn0, rr, rh⟩ := req
  rw [updatePageH.updatePageH2.eq_def]
  dsimp only
  cases rr with
  | some r =>
    dsimp only
    by_cases h1 : (trimSpace r == "") = true
    · rw [if_pos h1]
      exact Or.inl rfl
    · rw [if_neg h1]
      by_cases h2 : checkRouteExists db.pages r (some id) = true
      · rw [if_pos h2]
        exact Or.inl rfl
      · rw [if_neg h2]
        rcases updatePageH3_cases db id ex ⟨rn0, some r, rh⟩ nameUpd (some (trimSpace r))
          with h | ⟨pages1, hp1, hres⟩
        · exact Or.inl h
        · exact Or.inr ⟨pages1, some (trimSpace r), hp1, hres⟩
  | none =>
    rcases updatePageH3_cases db id ex ⟨rn0, none, rh⟩ nameUpd none
      with h | ⟨pages1, hp1, hres⟩
    · exact Or.inl h
    · exact Or.inr ⟨pages1, none, hp1, hres⟩

/-- Branch characterization of `UpdatePage`'s post-state: unchanged, or, for
an existing target page, built from `pages1` (the table with home flags
cleared exactly when `is_home` arrives as true on a page not currently home)
either alone or with the supplied columns rewritten on the target id's rows —
and in the latter case no other row holds a newly supplied route. -/
theorem updatePageH_cases (db : Db) (id : Nat) (req : UpdatePageReq) :
    (updatePageH db id req).2 = db ∨
    ∃ ex pages1 nameUpd routeUpd,
      pageGetByID db.pages id = some ex ∧
      ((req.isHome = some true ∧ ex.isHome = false ∧ pages1 = unsetHomePage db.pages) ∨
        (¬(req.isHome = some true ∧ ex.isHome = false) ∧ pages1 = db.pages)) ∧
      ((updatePageH db id req).2 = { db with pages := pages1 } ∨
        ((∀ r, routeUpd = some r → ∀ pg ∈ pages1, pg.id ≠ id → pg.route ≠ r) ∧
          (updatePageH db id req).2 = { db with pages := pages1.map (fun pg : Page =>
            if pg.id == id then applyPageUpdates ⟨nameUpd, routeUpd, req.isHome⟩ pg else pg) })) := by
  obtain ⟨rn, rr, rh⟩ := req
  rw [updatePageH.eq_def]
  cases hex : pageGetByID db.pages id with
  | none => exact Or.inl rfl
  | some ex =>
    dsimp only
    cases rn with
    | some n =>
      dsimp only
      by_cases h1 : (trimSpace n == "") = true
      · rw [if_pos h1]
        exact Or.inl rfl
      · rw [if_neg h1]
        rcases updatePageH2_cases db id ex ⟨some n, rr, rh⟩ (some (trimSpace n))
          with h | ⟨pages1, routeUpd, hp1, hres⟩
        · exact Or.inl h
        · exact Or.inr ⟨ex, pages1, some (trimSpace n), routeUpd, rfl, hp1, hres⟩
    | none =>
      rcases updatePageH2_cases db id ex ⟨none, rr, rh⟩ none
        with h | ⟨pages1, routeUpd, hp1, hres⟩
      · exact Or.inl h
      · exact Or.inr ⟨ex, pages1, none, routeUpd, rfl, hp1, hres⟩

theorem updateMapFn_id (id : Nat) (u : PageUpdates) (pg : Page) :
    ((if pg.id == id then applyPageUpdates u pg else pg) : Page).id = pg.id := by
  split <;> rfl

theorem updateMap_ids (pages : List Page) (id : Nat) (u : PageUpdates) :
    (pages.map (fun pg : Page => if pg.id == id then applyPageUpdates u pg else pg)).map
      (fun pg => pg.id) = pages.map (fun pg => pg.id) := by
  rw [List.map_map]
  exact List.map_congr_left (fun pg _ => updateMapFn_id id u pg)

theorem countP_id_le_one (pages : List Page) (h : pageIdsNodup pages) (id : Nat) :
    pages.countP (fun pg => pg.id == id) ≤ 1 := by
  have heq : pages.countP (fun pg => pg.id == id)
      = (pages.map (fun pg => pg.id)).count id := by
    rw [List.count_eq_countP, List.countP_map]
    rfl
  rw [heq]
  exact List.nodup_iff_count_le_one.mp h id

theorem routes_nodup_map_update_some (id : Nat) (u : PageUpdates) (r : String)
    (hu : u.route = some r) :
    ∀ pages : List Page, pageIdsNodup pages → routesNodup pages →
      (∀ pg ∈ pages, pg.id ≠ id → pg.route ≠ r) →
      routesNodup (pages.map (fun pg : Page =>
        if pg.id == id then applyPageUpdates u pg else pg)) := by
  intro pages
  induction pages with
  | nil =>
    intro _ _ _
    simp [routesNodup]
  | cons pg tl ih =>
    intro hids hroutes hguard
    have hids2 : (pg.id :: tl.map (fun q : Page => q.id)).Nodup := by
      have h0 := hids
      rwa [pageIdsNodup, List.map_cons] at h0
    have hids' : pageIdsNodup tl := by
      rw [pageIdsNodup]
      exact (List.nodup_cons.mp hids2).2
    have hidnotin : pg.id ∉ tl.map (fun q : Page => q.id) := (List.nodup_cons.mp hids2).1
    have hroutes2 : (pg.route :: tl.map (fun q : Page => q.route)).Nodup := by
      have h0 := hroutes
      rwa [routesNodup, List.map_cons] at h0
    have hroutes' : routesNodup tl := by
      rw [routesNodup]
      exact (List.nodup_cons.mp hroutes2).2
    have hroutenotin : pg.route ∉ tl.map (fun q : Page => q.route) :=
      (List.nodup_cons.mp hroutes2).1
    have happly_route : ∀ q : Page, (applyPageUpdates u q).route = r := by
      intro q
      rw [applyPageUpdates]
      simp [hu]
    rw [List.map_cons, routesNodup, List.map_cons, List.nodup_cons]
    by_cases hpg : (pg.id == id) = true
    · have hpgid : pg.id = id := by simpa using hpg
      have htl_same : tl.map (fun q : Page =>
          if q.id == id then applyPageUpdates u q else q) = tl := by
        have h1 : tl.map (fun q : Page => if q.id == id then applyPageUpdates u q else q)
            = tl.map (fun q : Page => q) := by
          apply List.map_congr_left
          intro q hq
          have hqid : q.id ≠ id := by
            intro hqid2
            have hmm : q.id ∈ tl.map (fun x : Page => x.id) := List.mem_map_of_mem _ hq
            rw [hqid2, ← hpgid] at hmm
            exact hidnotin hmm
          rw [if_neg (by simpa using hqid)]
        rw [h1]
        simp
      rw [if_pos hpg, htl_same]
      refine ⟨?_, by rw [routesNodup] at hroutes'; exact hroutes'⟩
      rw [happly_route pg]
      intro hmem
      rcases List.mem_map.mp hmem with ⟨q, hq, hqr⟩
      have hqid : q.id ≠ id := by
        intro hqid2
        have hmm : q.id ∈ tl.map (fun x : Page => x.id) := List.mem_map_of_mem _ hq
        rw [hqid2, ← hpgid] at hmm
        exact hidnotin hmm
      exact hguard q (List.mem_cons_of_mem _ hq) hqid hqr
    · have hpgid : pg.id ≠ id := by simpa using hpg
      rw [if_neg hpg]
      constructor
      · intro hmem
        rcases List.mem_map.mp hmem with ⟨q1, hq1, hqr⟩
        rcases List.mem_map.mp hq1 with ⟨q, hq, rfl⟩
        by_cases hqid : (q.id == id) = true
        · rw [if_pos hqid, happly_route q] at hqr
          exact hguard pg (List.mem_cons_self pg tl) hpgid hqr.symm
        · rw [if_neg hqid] at hqr
          have hmm : q.route ∈ tl.map (fun x : Page => x.route) := List.mem_map_of_mem _ hq
          rw [hqr] at hmm
          exact hroutenotin hmm
      · have hres := ih hids' hroutes' (fun q hq hqid => hguard q (List.mem_cons_of_mem _ hq) hqid)
        rw [routesNodup] at hres
        exact hres

theorem routesNodup_map_update (pages : List Page) (id : Nat) (u : PageUpdates)
    (hids : pageIdsNodup pages) (hroutes : routesNodup pages)
    (hguard : ∀ r, u.route = some r → ∀ pg ∈ pages, pg.id ≠ id → pg.route ≠ r) :
    routesNodup (pages.map (fun pg : Page =>
      if pg.id == id then applyPageUpdates u pg else pg)) := by
  cases hu : u.route with
  | none =>
    have hsame : (pages.map (fun pg : Page =>
        if pg.id == id then applyPageUpdates u pg else pg)).map (fun pg => pg.route)
        = pages.map (fun pg => pg.route) := by
      rw [List.map_map]
      apply List.map_congr_left
      intro pg _
      simp only [Function.comp_apply]
      split
      · show (applyPageUpdates u pg).route = pg.route
        rw [applyPageUpdates]
        simp [hu]
      · rfl
    rw [routesNodup, hsame]
    exact hroutes
  | some r =>
    exact routes_nodup_map_update_some id u r hu pages hids hroutes (hguard r hu)

/-- Every sequential page operation preserves distinctness of page ids (the
primary key). -/
theorem pageOp_preserves_ids (db : Db) (op : PageOp) (h : pageIdsNodup db.pages) :
    pageIdsNodup (applyPageOp db op).pages := by
  cases op with
  | create req =>
    rcases createPageH_state db req with h1 | ⟨h1, -⟩ | ⟨pages1, hp1, -, h1⟩
    · rw [applyPageOp, h1]
      exact h
    · rw [applyPageOp, h1]
      show pageIdsNodup (unsetHomePage db.pages)
      rw [pageIdsNodup, unsetHomePage_ids]
      exact h
    · rw [applyPageOp, h1]
      show pageIdsNodup (pages1 ++ [Page.mk (freshPageId pages1) (trimSpace req.name) (trimSpace req.route) req.isHome])
      have hp1ids : pageIdsNodup pages1 := by
        rcases hp1 with ⟨-, rfl⟩ | ⟨-, rfl⟩
        · rw [pageIdsNodup, unsetHomePage_ids]
          exact h
        · exact h
      exact pageIdsNodup_insert_fresh pages1 hp1ids _ rfl
  | update id req =>
    rcases updatePageH_cases db id req with h1 | ⟨ex, pages1, nU, rU, hex, hp1, hres⟩
    · rw [applyPageOp, h1]
      exact h
    · have hp1ids : pageIdsNodup pages1 := by
        rcases hp1 with ⟨-, -, rfl⟩ | ⟨-, rfl⟩
        · rw [pageIdsNodup, unsetHomePage_ids]
          exact h
        · exact h
      rcases hres with h1 | ⟨-, h1⟩
      · rw [applyPageOp, h1]
        exact hp1ids
      · rw [applyPageOp, h1]
        show pageIdsNodup (pages1.map (fun pg : Page =>
          if pg.id == id then applyPageUpdates ⟨nU, rU, req.isHome⟩ pg else pg))
        rw [pageIdsNodup, updateMap_ids]
        exact hp1ids
  | delete id =>
    rcases deletePageH_state db id with h1 | h1
    · rw [applyPageOp, h1]
      exact h
    · rw [applyPageOp, h1]
      show pageIdsNodup (db.pages.filter (fun q => q.id != id))
      exact List.Nodup.sublist (List.Sublist.map _ (List.filter_sublist _)) h

/-- Every sequential page operation preserves the singleton home-page
invariant, given distinct page ids. -/
theorem pageOp_preserves_home (db : Db) (op : PageOp)
    (hids : pageIdsNodup db.pages) (hhome : homeCount db.pages ≤ 1) :
    homeCount (applyPageOp db op).pages ≤ 1 := by
  cases op with
  | create req =>
    rcases createPageH_state db req with h1 | ⟨h1, -⟩ | ⟨pages1, hp1, -, h1⟩
    · rw [applyPageOp, h1]
      exact hhome
    · rw [applyPageOp, h1]
      show homeCount (unsetHomePage db.pages) ≤ 1
      rw [homeCount_unsetHomePage]
      omega
    · rw [applyPageOp, h1]
      show homeCount (pages1 ++ [Page.mk (freshPageId pages1) (trimSpace req.name) (trimSpace req.route) req.isHome]) ≤ 1
      rw [homeCount_append]
      rcases hp1 with ⟨hih, rfl⟩ | ⟨hih, rfl⟩
      · rw [homeCount_unsetHomePage]
        have : homeCount [Page.mk (freshPageId (unsetHomePage db.pages)) (trimSpace req.name) (trimSpace req.route) req.isHome] ≤ 1 := by
          rw [homeCount, List.countP_singleton]
          split <;> omega
        omega
      · have : homeCount [Page.mk (freshPageId db.pages) (trimSpace req.name) (trimSpace req.route) req.isHome] = 0 := by
          rw [homeCount, List.countP_singleton, hih]
          rfl
        omega
  | update id req =>
    rcases updatePageH_cases db id req with h1 | ⟨ex, pages1, nU, rU, hex, hp1, hres⟩
    · rw [applyPageOp, h1]
      exact hhome
    · have hp1ids : pageIdsNodup pages1 := by
        rcases hp1 with ⟨-, -, rfl⟩ | ⟨-, rfl⟩
        · rw [pageIdsNodup, unsetHomePage_ids]
          exact hids
        · exact hids
      have hp1home : homeCount pages1 ≤ 1 := by
        rcases hp1 with ⟨-, -, rfl⟩ | ⟨-, rfl⟩
        · rw [homeCount_unsetHomePage]
          omega
        · exact hhome
      rcases hres with h1 | ⟨-, h1⟩
      · rw [applyPageOp, h1]
        exact hp1home
      · rw [applyPageOp, h1]
        show homeCount (pages1.map (fun pg : Page =>
          if pg.id == id then applyPageUpdates ⟨nU, rU, req.isHome⟩ pg else pg)) ≤ 1
        rw [homeCount, List.countP_map]
        cases hih : req.isHome with
        | none =>
          have heq : pages1.countP ((fun pg : Page => pg.isHome) ∘ (fun pg : Page =>
              if pg.id == id then applyPageUpdates ⟨nU, rU, none⟩ pg else pg))
              = pages1.countP (fun pg => pg.isHome) := by
            apply List.countP_congr
            intro pg _
            simp only [Function.comp_apply]
            constructor
            · intro hx
              by_cases hpg : (pg.id == id) = true
              · rw [if_pos hpg] at hx
                rw [applyPageUpdates] at hx
                simpa using hx
              · rwa [if_neg hpg] at hx
            · intro hx
              by_cases hpg : (pg.id == id) = true
              · rw [if_pos hpg, applyPageUpdates]
                simpa using hx
              · rwa [if_neg hpg]
          rw [heq]
          exact hp1home
        | some b =>
          cases b with
          | false =>
            have hle : pages1.countP ((fun pg : Page => pg.isHome) ∘ (fun pg : Page =>
                if pg.id == id then applyPageUpdates ⟨nU, rU, some false⟩ pg else pg))
                ≤ pages1.countP (fun pg => pg.isHome) := by
              apply List.countP_mono_left
              intro pg _ hx
              simp only [Function.comp_apply] at hx
              by_cases hpg : (pg.id == id) = true
              · rw [if_pos hpg, applyPageUpdates] at hx
                simp at hx
              · rwa [if_neg hpg] at hx
            have hp1home2 : pages1.countP (fun pg => pg.isHome) ≤ 1 := hp1home
            omega
          | true =>
            rcases hp1 with ⟨-, hexh, rfl⟩ | ⟨hnot, rfl⟩
            · -- the home flags were cleared first: the count is the number of
              -- rows carrying the target id, at most one by the primary key
              have heq : (unsetHomePage db.pages).countP ((fun pg : Page => pg.isHome) ∘
                  (fun pg : Page => if pg.id == id
                    then applyPageUpdates ⟨nU, rU, some true⟩ pg else pg))
                  = (unsetHomePage db.pages).countP (fun pg => pg.id == id) := by
                apply List.countP_congr
                intro pg hpgmem
                have hpgfalse : pg.isHome = false := by
                  have h0 := homeCount_unsetHomePage db.pages
                  rw [homeCount, List.countP_eq_zero] at h0
                  simpa using h0 pg hpgmem
                simp only [Function.comp_apply]
                constructor
                · intro hx
                  by_cases hpg : (pg.id == id) = true
                  · exact hpg
                  · rw [if_neg hpg] at hx
                    rw [hpgfalse] at hx
                    cases hx
                · intro hx
                  rw [if_pos hx, applyPageUpdates]
                  simp
              rw [heq]
              have hu_ids : pageIdsNodup (unsetHomePage db.pages) := by
                rw [pageIdsNodup, unsetHomePage_ids]
                exact hids
              exact countP_id_le_one (unsetHomePage db.pages) hu_ids id
            · -- the target page is already home: every row keeps its flag
              have hexmem := pageGetByID_some db.pages id ex hex
              have hexh : ex.isHome = true := by
                rcases hexmem with ⟨-, -⟩
                by_contra hfalse
                exact hnot ⟨hih, by simpa using hfalse⟩
              have heq : db.pages.countP ((fun pg : Page => pg.isHome) ∘
                  (fun pg : Page => if pg.id == id
                    then applyPageUpdates ⟨nU, rU, some true⟩ pg else pg))
                  = db.pages.countP (fun pg => pg.isHome) := by
                apply List.countP_congr
                intro pg hpgmem
                simp only [Function.comp_apply]
                by_cases hpg : (pg.id == id) = true
                · have hpgex : pg = ex := by
                    apply List.inj_on_of_nodup_map hids hpgmem hexmem.1
                    rw [hexmem.2]
                    simpa using hpg
                  rw [if_pos hpg, applyPageUpdates]
                  simp [hpgex, hexh]
                · rw [if_neg hpg]
              rw [heq]
              exact hhome
  | delete id =>
    rcases deletePageH_state db id with h1 | h1
    · rw [applyPageOp, h1]
      exact hhome
    · rw [applyPageOp, h1]
      show homeCount (db.pages.filter (fun q => q.id != id)) ≤ 1
      have hsub : (db.pages.filter (fun q => q.id != id)).Sublist db.pages :=
        List.filter_sublist db.pages
      have hle := List.Sublist.countP_le (fun pg : Page => pg.isHome) hsub
      have hhome2 : db.pages.countP (fun pg => pg.isHome) ≤ 1 := hhome
      show (db.pages.filter (fun q => q.id != id)).countP (fun pg => pg.isHome) ≤ 1
      omega

/-- Every sequential page operation preserves route uniqueness, given
distinct page ids. -/
theorem pageOp_preserves_routes (db : Db) (op : PageOp)
    (hids : pageIdsNodup db.pages) (hroutes : routesNodup db.pages) :
    routesNodup (applyPageOp db op).pages := by
  cases op with
  | create req =>
    rcases createPageH_state db req with h1 | ⟨h1, -⟩ | ⟨pages1, hp1, hguard, h1⟩
    · rw [applyPageOp, h1]
      exact hroutes
    · rw [applyPageOp, h1]
      show routesNodup (unsetHomePage db.pages)
      rw [routesNodup, unsetHomePage_routes]
      exact hroutes
    · rw [applyPageOp, h1]
      show routesNodup (pages1 ++ [Page.mk (freshPageId pages1) (trimSpace req.name) (trimSpace req.route) req.isHome])
      have hp1routes : routesNodup pages1 := by
        rcases hp1 with ⟨-, rfl⟩ | ⟨-, rfl⟩
        · rw [routesNodup, unsetHomePage_routes]
          exact hroutes
        · exact hroutes
      rw [routesNodup, List.map_append, List.nodup_append]
      refine ⟨hp1routes, List.nodup_singleton _, ?_⟩
      intro x hx
      simp only [List.map_cons, List.map_nil, List.mem_singleton]
      intro hxeq
      rcases List.mem_map.mp hx with ⟨q, hq, rfl⟩
      exact hguard q hq hxeq
  | update id req =>
    rcases updatePageH_cases db id req with h1 | ⟨ex, pages1, nU, rU, hex, hp1, hres⟩
    · rw [applyPageOp, h1]
      exact hroutes
    · have hp1ids : pageIdsNodup pages1 := by
        rcases hp1 with ⟨-, -, rfl⟩ | ⟨-, rfl⟩
        · rw [pageIdsNodup, unsetHomePage_ids]
          exact hids
        · exact hids
      have hp1routes : routesNodup pages1 := by
        rcases hp1 with ⟨-, -, rfl⟩ | ⟨-, rfl⟩
        · rw [routesNodup, unsetHomePage_routes]
          exact hroutes
        · exact hroutes
      rcases hres with h1 | ⟨hguard, h1⟩
      · rw [applyPageOp, h1]
        exact hp1routes
      · rw [applyPageOp, h1]
        show routesNodup (pages1.map (fun pg : Page =>
          if pg.id == id then applyPageUpdates ⟨nU, rU, req.isHome⟩ pg else pg))
        exact routesNodup_map_update pages1 id ⟨nU, rU, req.isHome⟩ hp1ids hp1routes
          (fun r hr pg hpg hne => hguard r hr pg hpg hne)
  | delete id =>
    rcases deletePageH_state db id with h1 | h1
    · rw [applyPageOp, h1]
      exact hroutes
    · rw [applyPageOp, h1]
      show routesNodup (db.pages.filter (fun q => q.id != id))
      exact List.Nodup.sublist (List.Sublist.map _ (List.filter_sublist _)) hroutes

theorem pageOps_preserve_routes (db : Db) (hids : pageIdsNodup db.pages)
    (hroutes : routesNodup db.pages) (ops : List PageOp) :
    routesNodup (applyPageOps db ops).pages := by
  revert hids hroutes
  induction ops generalizing db with
  | nil =>
    intro _ hroutes
    exact hroutes
  | cons op rest ih =>
    intro hids hroutes
    rw [applyPageOps, List.foldl_cons]
    exact ih (applyPageOp db op) (pageOp_preserves_ids db op hids)
      (pageOp_preserves_routes db op hids hroutes)

/-- C3: starting from a state with distinct page ids and at most one home
page, after any sequence of sequential page Create, Update and Delete
operations completes, at most one page has the home flag set: a Create with
isHome true, or an Update supplying isHome true on a page not previously
home, first clears the flag from whichever pages hold it before writing the
new flag. -/
theorem claim3_home_page_singleton (db : Db) (hids : pageIdsNodup db.pages)
    (hhome : homeCount db.pages ≤ 1) (ops : List PageOp) :
    homeCount (applyPageOps db ops).pages ≤ 1 := by
  revert hids hhome
  induction ops generalizing db with
  | nil =>
    intro _ hhome
    exact hhome
  | cons op rest ih =>
    intro hids hhome
    rw [applyPageOps, List.foldl_cons]
    exact ih (applyPageOp db op) (pageOp_preserves_ids db op hids)
      (pageOp_preserves_home db op hids hhome)

/-- Witness for C3: from a single home page, creating a second home page,
re-flagging page 1 as home, and deleting page 2 leaves at most one home page. -/
theorem claim3_witness :
    pageIdsNodup [Page.mk 1 "A" "/a" true] ∧
    homeCount [Page.mk 1 "A" "/a" true] ≤ 1 ∧
    homeCount (applyPageOps (Db.mk [Page.mk 1 "A" "/a" true] [])
      [PageOp.create (CreatePageReq.mk "B" "/b" true),
       PageOp.update 1 (UpdatePageReq.mk none none (some true)),
       PageOp.delete 2]).pages ≤ 1 :=
  ⟨by decide, by decide,
   claim3_home_page_singleton (Db.mk [Page.mk 1 "A" "/a" true] []) (by decide) (by decide)
     [PageOp.create (CreatePageReq.mk "B" "/b" true),
      PageOp.update 1 (UpdatePageReq.mk none none (some true)),
      PageOp.delete 2]⟩

/-- C4: route uniqueness is enforced at write time by a uniqueness check
preceding the insert/update: a page Create whose route equals an existing
page's stored route (case-sensitive exact match) fails with Conflict and
writes nothing; an Update whose supplied route equals a different page's
route fails with Conflict and writes nothing; and, together with the schema's
route UNIQUE constraint, after any sequence of page operations on a
well-formed state no two pages have the same stored route. -/
theorem claim4_route_uniqueness (db : Db) (hids : pageIdsNodup db.pages)
    (hroutes : routesNodup db.pages) :
    (∀ req : CreatePageReq, trimSpace req.name ≠ "" → trimSpace req.route ≠ "" →
      (∃ pg ∈ db.pages, pg.route = req.route) →
      createPageH db req = (.error ⟨.conflict, "Page route already exists"⟩, db)) ∧
    (∀ (id : Nat) (req : UpdatePageReq) (r : String) (ex : Page),
      pageGetByID db.pages id = some ex →
      (∀ n, req.name = some n → trimSpace n ≠ "") →
      req.route = some r → trimSpace r ≠ "" →
      (∃ pg ∈ db.pages, pg.id ≠ id ∧ pg.route = r) →
      updatePageH db id req = (.error ⟨.conflict, "Page route already exists"⟩, db)) ∧
    (∀ ops : List PageOp, routesNodup (applyPageOps db ops).pages) := by
  refine ⟨?_, ?_, fun ops => pageOps_preserve_routes db hids hroutes ops⟩
  · intro req hname hroute hdup
    have hchk : checkRouteExists db.pages req.route none = true := by
      rw [checkRouteExists]
      rcases hdup with ⟨pg, hpg, hr⟩
      exact List.any_eq_true.mpr ⟨pg, hpg, by simp [hr]⟩
    rw [createPageH, if_neg (by simpa using hname), if_neg (by simpa using hroute),
      if_pos hchk]
  · intro id req r ex hex hname hroute hrtrim hdup
    obtain ⟨rn, rr, rh⟩ := req
    have hchk : checkRouteExists db.pages r (some id) = true := by
      rw [checkRouteExists]
      rcases hdup with ⟨pg, hpg, hne, hr⟩
      exact List.any_eq_true.mpr ⟨pg, hpg, by simp [hr, hne]⟩
    have hrr : rr = some r := hroute
    subst hrr
    rw [updatePageH.eq_def, hex]
    dsimp only
    cases rn with
    | some n =>
      dsimp only
      rw [if_neg (by simpa using hname n rfl)]
      rw [updatePageH.updatePageH2.eq_def]
      dsimp only
      rw [if_neg (by simpa using hrtrim), if_pos hchk]
    | none =>
      rw [updatePageH.updatePageH2.eq_def]
      dsimp only
      rw [if_neg (by simpa using hrtrim), if_pos hchk]

/-- Witness for C4 at a concrete database with pages 1 (/a) and 2 (/b):
creating a page with route /a fails with Conflict and no write; updating page
1's route to /b fails with Conflict and no write; a subsequent create keeps
routes distinct. -/
theorem claim4_witness :
    (pageIdsNodup [Page.mk 1 "A" "/a" false, Page.mk 2 "B" "/b" false] ∧
      routesNodup [Page.mk 1 "A" "/a" false, Page.mk 2 "B" "/b" false]) ∧
    createPageH (Db.mk [Page.mk 1 "A" "/a" false, Page.mk 2 "B" "/b" false] [])
      (CreatePageReq.mk "C" "/a" false)
      = (.error ⟨.conflict, "Page route already exists"⟩,
         Db.mk [Page.mk 1 "A" "/a" false, Page.mk 2 "B" "/b" false] []) ∧
    updatePageH (Db.mk [Page.mk 1 "A" "/a" false, Page.mk 2 "B" "/b" false] []) 1
      (UpdatePageReq.mk none (some "/b") none)
      = (.error ⟨.conflict, "Page route already exists"⟩,
         Db.mk [Page.mk 1 "A" "/a" false, Page.mk 2 "B" "/b" false] []) ∧
    routesNodup (applyPageOps (Db.mk [Page.mk 1 "A" "/a" false, Page.mk 2 "B" "/b" false] [])
      [PageOp.create (CreatePageReq.mk "C" "/c" false)]).pages :=
  ⟨⟨by decide, by decide⟩,
   (claim4_route_uniqueness (Db.mk [Page.mk 1 "A" "/a" false, Page.mk 2 "B" "/b" false] [])
      (by decide) (by decide)).1 (CreatePageReq.mk "C" "/a" false)
      (by decide) (by decide) ⟨Page.mk 1 "A" "/a" false, by decide, rfl⟩,
   (claim4_route_uniqueness (Db.mk [Page.mk 1 "A" "/a" false, Page.mk 2 "B" "/b" false] [])
      (by decide) (by decide)).2.1 1 (UpdatePageReq.mk none (some "/b") none) "/b"
      (Page.mk 1 "A" "/a" false) rfl (fun n h => nomatch h) rfl (by decide)
      ⟨Page.mk 2 "B" "/b" false, by decide, by decide, rfl⟩,
   (claim4_route_uniqueness (Db.mk [Page.mk 1 "A" "/a" false, Page.mk 2 "B" "/b" false] [])
      (by decide) (by decide)).2.2 [PageOp.create (CreatePageReq.mk "C" "/c" false)]⟩

end AppDrop
